import Mathlib

/-!
Verification of the ino2ubi parsing/generation pipeline.

This file gives a shallow embedding, in Lean 4, of the extractor
(`src/parser.py`) and the emitter (`src/generator.py`, plus the escaping
helper of `src/scripts/generator.py`) of the ino2ubi converter, and proves
the behavioural claims about them.

Modelling conventions:
* Python strings are modelled as `String` / `List Char`; all scanning
  helpers work on `List Char` with explicit absolute indices.
* The character classes of the Python regular expressions (`\s`, `\w`,
  identifier characters) are modelled over ASCII, which covers every
  character the patterns themselves mention; the exotic Unicode cases of
  `str.isspace` / `int()` are outside the scope of the claims.
* Scanning loops whose cursor jumps by a computed amount use an explicit
  fuel argument (the length of the scanned text suffices), so that all
  definitions are structurally recursive and kernel-reducible.
* Python operations that can raise are embedded in `Except String`;
  `try/except ValueError` becomes a `match` on the `Except` value.
-/

namespace Ino2Ubi

/-- Python whitespace predicate (`str.isspace` / `\s` of `re`), ASCII part. -/
def pyWs (c : Char) : Bool :=
  c = ' ' || c = '\t' || c = '\n' || c = '\r' || c = '\x0b' || c = '\x0c'

/-- Word character of the regex class `\w` (ASCII). -/
def isWordC (c : Char) : Bool :=
  c.isAlpha || c.isDigit || c = '_'

/-- Start character of the identifier pattern `[A-Za-z_]`. -/
def identStart (c : Char) : Bool :=
  c.isAlpha || c = '_'

/-- The double-quote character. -/
def quoteC : Char := Char.ofNat 34

/-- The single-quote character. -/
def aposC : Char := Char.ofNat 39

/-- Left-strip by Python whitespace (`str.lstrip`). -/
def pyStripL (l : List Char) : List Char := l.dropWhile pyWs

/-- Right-strip by Python whitespace (`str.rstrip`). -/
def pyStripR (l : List Char) : List Char := (l.reverse.dropWhile pyWs).reverse

/-- Model of Python `str.strip()` on character lists. -/
def pyStripC (l : List Char) : List Char := pyStripR (pyStripL l)

/-- Model of Python `str.strip()` on strings. -/
def pyStrip (s : String) : String := String.mk (pyStripC s.data)

/-- Model of Python `str.rstrip()` on strings. -/
def pyRstrip (s : String) : String := String.mk (pyStripR s.data)

/-- Model of Python `str.find(needle)` scanning from absolute index `i`
(result is an absolute index, `none` for Python's `-1`). -/
def findSubFrom (needle : List Char) : List Char → Nat → Option Nat
  | [], i => if needle.isEmpty then some i else none
  | c :: rest, i =>
    if needle.isPrefixOf (c :: rest) then some i
    else findSubFrom needle rest (i + 1)

/-- Model of Python `needle in hay`. -/
def containsSub (needle hay : List Char) : Bool :=
  (findSubFrom needle hay 0).isSome

/-- Model of Python `str.split(sep)` for a single-character separator
(`"".split(c) == ['']`, and a trailing separator yields a trailing
empty part, as in Python). -/
def pySplitOn (sep : Char) : List Char → List (List Char)
  | [] => [[]]
  | c :: rest =>
    if c = sep then [] :: pySplitOn sep rest
    else match pySplitOn sep rest with
      | [] => [[c]]
      | p :: ps => (c :: p) :: ps

/-- Accumulator worker for `pySplitWs`; `buf` holds the current word,
reversed. -/
def pySplitWsAux : List Char → List Char → List (List Char)
  | buf, [] => if buf.isEmpty then [] else [buf.reverse]
  | buf, c :: rest =>
    if pyWs c then
      if buf.isEmpty then pySplitWsAux [] rest
      else buf.reverse :: pySplitWsAux [] rest
    else pySplitWsAux (c :: buf) rest

/-- Model of Python `str.split()` with no argument: split on whitespace
runs, dropping empty fragments. -/
def pySplitWs (l : List Char) : List (List Char) := pySplitWsAux [] l

/-! ### Deterministic matchers for the concrete regular expressions

Each matcher consumes a suffix of the text and returns the number of
characters matched (the patterns below are deterministic: every
quantified sub-pattern is followed by a character it cannot consume, so
greedy matching needs no backtracking). -/

/-- Match a literal string. -/
def mLit (lit : List Char) (l : List Char) : Option (Nat × List Char) :=
  if lit.isPrefixOf l then some (lit.length, l.drop lit.length) else none

/-- Match `\s+` (at least one whitespace character, greedily). -/
def mWs1 (l : List Char) : Option (Nat × List Char) :=
  let w := l.takeWhile pyWs
  if w.isEmpty then none else some (w.length, l.drop w.length)

/-- Match `\s*` (any whitespace, greedily; always succeeds). -/
def mWs0 (l : List Char) : Nat × List Char :=
  let w := l.takeWhile pyWs
  (w.length, l.drop w.length)

/-- Match one given character. -/
def mChar (c : Char) (l : List Char) : Option (Nat × List Char) :=
  match l with
  | a :: r => if a = c then some (1, r) else none
  | [] => none

/-- Match `[A-Za-z_][A-Za-z0-9_]*` and return the identifier. -/
def mIdent (l : List Char) : Option (List Char × Nat × List Char) :=
  match l with
  | a :: r =>
    if identStart a then
      let tl := r.takeWhile isWordC
      some (a :: tl, tl.length + 1, r.drop tl.length)
    else none
  | [] => none

/-- Leftmost search for a matcher: try the pattern at every start
position (like `re.search`); returns `(start, length)`. None of the
patterns used below can match the empty suffix, so the scan stops at
end of text. -/
def searchPat (m : List Char → Option Nat) : List Char → Nat → Option (Nat × Nat)
  | [], _ => none
  | c :: rest, i =>
    match m (c :: rest) with
    | some len => some (i, len)
    | none => searchPat m rest (i + 1)

/-- Matcher for the pattern `void\s+NAME\s*\(\s*\)\s*\{` used by
`extract_function_body` (src/parser.py line 12); the interpolated
function name is matched literally, as at both call sites (`setup`,
`loop`) it contains no regex metacharacter. -/
def matchVoidHeader (name : List Char) (l : List Char) : Option Nat :=
  match mLit "void".data l with
  | none => none
  | some (n1, l1) =>
    match mWs1 l1 with
    | none => none
    | some (n2, l2) =>
      match mLit name l2 with
      | none => none
      | some (n3, l3) =>
        let (n4, l4) := mWs0 l3
        match mChar '(' l4 with
        | none => none
        | some (n5, l5) =>
          let (n6, l6) := mWs0 l5
          match mChar ')' l6 with
          | none => none
          | some (n7, l7) =>
            let (n8, l8) := mWs0 l7
            match mChar '\x7b' l8 with
            | none => none
            | some (n9, _) => some (n1 + n2 + n3 + n4 + n5 + n6 + n7 + n8 + n9)

/-- Brace-depth scan of src/parser.py lines 17-24 (and 32-39): starting
at depth `depth ≥ 1`, consume characters updating the depth at `{`/`}`;
return the number of characters consumed when the depth reaches zero, or
`none` if the text ends first. -/
def braceScan : List Char → Nat → Option Nat
  | [], _ => none
  | c :: rest, depth =>
    let d := if c = '\x7b' then depth + 1 else if c = '\x7d' then depth - 1 else depth
    if d = 0 then some 1 else (braceScan rest d).map (· + 1)

/-- Embedding of `extract_function_body` (src/parser.py lines 10-27):
locate `void NAME ( ) {`, then brace-match; on any failure return `""`. -/
def extract_function_body (code : String) (func_name : String) : String :=
  let cs := code.data
  match searchPat (matchVoidHeader func_name.data) cs 0 with
  | none => ""
  | some (i, len) =>
    let start := i + len
    match braceScan (cs.drop start) 1 with
    | some consumed => pyStrip (String.mk ((cs.drop start).take (consumed - 1)))
    | none => ""

/-- Embedding of `extract_custom_function_body` (src/parser.py lines
30-42): brace-match from a given start position (just after `{`). -/
def extract_custom_function_body (code : String) (start_pos : Nat) : String :=
  match braceScan (code.data.drop start_pos) 1 with
  | some consumed => pyStrip (String.mk ((code.data.drop start_pos).take (consumed - 1)))
  | none => ""

/-- Matcher for the pattern `void\s+setup\s*\(` / `void\s+loop\s*\(`
(src/parser.py lines 47-48, 134-137). -/
def matchVoidCall (name : List Char) (l : List Char) : Option Nat :=
  match mLit "void".data l with
  | none => none
  | some (n1, l1) =>
    match mWs1 l1 with
    | none => none
    | some (n2, l2) =>
      match mLit name l2 with
      | none => none
      | some (n3, l3) =>
        let (n4, l4) := mWs0 l3
        match mChar '(' l4 with
        | none => none
        | some (n5, _) => some (n1 + n2 + n3 + n4 + n5)

/-- Start offset of the first `void setup(` / `void loop(` declaration,
if any. -/
def voidCallStart (code : List Char) (name : String) : Option Nat :=
  (searchPat (matchVoidCall name.data) code 0).map Prod.fst

/-- Embedding of `extract_global_section` (src/parser.py lines 45-54):
the trimmed text before the first of `setup`/`loop`, or the whole text. -/
def extract_global_section (code : String) : String :=
  let cs := code.data
  let setupPos := (voidCallStart cs "setup").getD cs.length
  let loopPos := (voidCallStart cs "loop").getD cs.length
  let firstPos := min setupPos loopPos
  pyStrip (String.mk (cs.take firstPos))

/-- Strip the leading `\s*//\s*` from one comment line, then right-strip
(the `re.sub` of src/parser.py line 85; the pattern is anchored so at
most one substitution happens). -/
def cleanCommentLine (line : List Char) : List Char :=
  let l1 := line.dropWhile pyWs
  if ("//".data).isPrefixOf l1 then
    pyStripR ((l1.drop 2).dropWhile pyWs)
  else pyStripR line

/-- Accumulate consecutive `//` lines for `extract_leading_comment`
(src/parser.py lines 77-89); `fuel` bounds the number of lines. -/
def leadCommentLines (fuel : Nat) (cs : List Char) (pos : Nat) : List (List Char) :=
  match fuel with
  | 0 => []
  | fuel + 1 =>
    if pos < cs.length then
      let lineEnd := (findSubFrom ['\n'] (cs.drop pos) 0).map (· + pos) |>.getD cs.length
      let line := (cs.drop pos).take (lineEnd - pos)
      if ("//".data).isPrefixOf (pyStripC line) then
        cleanCommentLine line :: leadCommentLines fuel cs (lineEnd + 1)
      else []
    else []

/-- Join fragments with a separator character list. -/
def joinWith (sep : List Char) : List (List Char) → List Char
  | [] => []
  | [p] => p
  | p :: ps => p ++ sep ++ joinWith sep ps

/-- Embedding of `extract_leading_comment` (src/parser.py lines 57-93). -/
def extract_leading_comment (code : String) : Option String :=
  let cs := code.data
  let i := (cs.takeWhile pyWs).length
  if i ≥ cs.length then none
  else if ("/*".data).isPrefixOf (cs.drop i) then
    let body :=
      match findSubFrom "*/".data (cs.drop (i + 2)) (i + 2) with
      | none => pyStripC (cs.drop (i + 2))
      | some e => pyStripC ((cs.drop (i + 2)).take (e - (i + 2)))
    if body.isEmpty then none else some (String.mk body)
  else if ("//".data).isPrefixOf (cs.drop i) then
    let body := pyStripC (joinWith ['\n'] (leadCommentLines (cs.length + 1) cs i))
    if body.isEmpty then none else some (String.mk body)
  else none

/-! ### Function cataloguing (`parse_functions`) -/

/-- Return-type alternatives of the function-header pattern
(src/parser.py line 116), in the alternation order of the source. -/
def funcRetTypes : List String :=
  ["void", "int", "long", "bool", "boolean", "float", "double", "byte",
   "char", "String", "uint8_t", "int16_t", "uint16_t", "int32_t", "uint32_t"]

/-- Tail of the function-header pattern after the return type:
`\s+([a-zA-Z_][a-zA-Z0-9_]*)\s*\(([^)]*)\)\s*\{`; returns
(identifier, raw parameter text, consumed length). -/
def matchFuncHeaderTail (l : List Char) : Option (List Char × List Char × Nat) :=
  match mWs1 l with
  | none => none
  | some (n1, l1) =>
    match mIdent l1 with
    | none => none
    | some (nm, n2, l2) =>
      let (n3, l3) := mWs0 l2
      match mChar '(' l3 with
      | none => none
      | some (n4, l4) =>
        let ps := l4.takeWhile (· ≠ ')')
        let l5 := l4.drop ps.length
        match mChar ')' l5 with
        | none => none
        | some (n6, l6) =>
          let (n7, l7) := mWs0 l6
          match mChar '\x7b' l7 with
          | none => none
          | some (n8, _) =>
            some (nm, ps, n1 + n2 + n3 + n4 + ps.length + n6 + n7 + n8)

/-- Try the return-type alternatives in order (regex alternation commits
to the first alternative for which the rest of the pattern matches). -/
def matchFuncHeader (types : List String) (l : List Char) : Option (String × List Char × List Char × Nat) :=
  match types with
  | [] => none
  | t :: ts =>
    match mLit t.data l with
    | some (n0, l0) =>
      (match matchFuncHeaderTail l0 with
       | some (nm, ps, n1) => some (t, nm, ps, n0 + n1)
       | none => matchFuncHeader ts l)
    | none => matchFuncHeader ts l

/-- One match of the function-header pattern. -/
structure FuncMatch where
  start : Nat
  retType : String
  name : String
  rawParams : String
  endPos : Nat
deriving Repr, DecidableEq

/-- Model of `re.finditer` for the function-header pattern: scan left to
right, non-overlapping (resume after each match). `fuel` bounds the scan. -/
def findFuncHeaders (fuel : Nat) (cs : List Char) (i : Nat) : List FuncMatch :=
  match fuel with
  | 0 => []
  | fuel + 1 =>
    match cs with
    | [] => []
    | c :: rest =>
      match matchFuncHeader funcRetTypes (c :: rest) with
      | some (t, nm, ps, len) =>
        { start := i, retType := t, name := String.mk nm,
          rawParams := String.mk ps, endPos := i + len } ::
          findFuncHeaders fuel ((c :: rest).drop len) (i + len)
      | none => findFuncHeaders fuel rest (i + 1)

/-- One parsed function parameter (`{'type': ..., 'name': ...}`). -/
structure PParam where
  type : String
  name : String
deriving Repr, DecidableEq

/-- Embedding of `parse_function_params` (src/parser.py lines 96-111):
split on plain commas, then on whitespace; keep fragments with at least
two tokens, taking the first two. -/
def parse_function_params (params_str : String) : List PParam :=
  if (pyStrip params_str).data.isEmpty then []
  else
    (pySplitOn ',' params_str.data).filterMap fun param =>
      let p := pyStripC param
      if p.isEmpty then none
      else
        match pySplitWs p with
        | t :: n :: _ => some { type := String.mk t, name := String.mk n }
        | _ => none

/-- Record for one catalogued function. -/
structure FuncInfo where
  return_type : String
  params : String
  parsed_params : List PParam
  body : String
  location : String
deriving Repr, DecidableEq

/-- Python-dict insertion into an association list: replace the value in
place when the key exists, else append. -/
def dictInsert {α : Type} (m : List (String × α)) (k : String) (v : α) : List (String × α) :=
  if (m.lookup k).isSome then
    m.map fun p => if p.1 = k then (p.1, v) else p
  else m ++ [(k, v)]

/-- Embedding of `parse_functions` (src/parser.py lines 114-150). The
position of the first `setup`/`loop` header is computed once (the source
recomputes the same value inside the loop). -/
def parse_functions (code : String) : List (String × FuncInfo) :=
  let cs := code.data
  let ms := findFuncHeaders (cs.length + 1) cs 0
  let setupPos := (voidCallStart cs "setup").getD cs.length
  let loopPos := (voidCallStart cs "loop").getD cs.length
  let firstPos := min setupPos loopPos
  ms.foldl (fun acc m =>
    if m.name = "setup" ∨ m.name = "loop" then acc
    else
      dictInsert acc m.name
        { return_type := pyStrip m.retType
          params := pyStrip m.rawParams
          parsed_params := parse_function_params (pyStrip m.rawParams)
          body := extract_custom_function_body code m.endPos
          location := if m.start < firstPos then "до setup/loop" else "после loop" })
    []

/-! ### Python numeric-literal acceptors

`int()` and `float()` are the two operations of the extractor that can
raise; they are modelled as `Except String` values that either succeed
or raise `"ValueError"`, following the CPython literal grammar
(ASCII digits; underscores allowed singly between digits). -/

/-- Match `digit (('_')? digit)*` (a `digitpart`); returns the rest. -/
def mDigitPart (l : List Char) : Option (List Char) :=
  match l with
  | c :: rest =>
    if c.isDigit then some (mDigitTail rest) else none
  | [] => none
where
  /-- Consume `(('_')? digit)*` greedily. -/
  mDigitTail : List Char → List Char
    | '_' :: d :: rest => if d.isDigit then mDigitTail rest else '_' :: d :: rest
    | d :: rest => if d.isDigit then mDigitTail rest else d :: rest
    | [] => []

/-- Optional sign. -/
def mSign (l : List Char) : List Char :=
  match l with
  | '+' :: rest => rest
  | '-' :: rest => rest
  | _ => l

/-- Case-insensitive literal match. -/
def mLitCI (lit : List Char) (l : List Char) : Option (List Char) :=
  match lit, l with
  | [], rest => some rest
  | _ :: _, [] => none
  | a :: as, c :: cs => if c.toLower = a then mLitCI as cs else none

/-- Mantissa of a Python float literal:
`digitpart? '.' digitpart | digitpart '.'? `. -/
def mFloatMantissa (l : List Char) : Option (List Char) :=
  match l with
  | '.' :: rest =>
    match mDigitPart rest with
    | some r => some r
    | none => none
  | _ =>
    match mDigitPart l with
    | none => none
    | some r =>
      match r with
      | '.' :: r2 =>
        match mDigitPart r2 with
        | some r3 => some r3
        | none => some r2
      | _ => some r

/-- Optional exponent `((e|E) sign? digitpart)?`; fails only when an
`e` is present but malformed. -/
def mFloatExp (l : List Char) : Option (List Char) :=
  match l with
  | c :: rest =>
    if c = 'e' ∨ c = 'E' then
      match mDigitPart (mSign rest) with
      | some r => some r
      | none => none
    else some l
  | [] => some l

/-- Whether CPython `float(s)` accepts the string (ASCII model):
optional whitespace and sign, then `inf`/`infinity`/`nan`
(case-insensitive) or a decimal float literal. -/
def pyFloatAccepts (s : String) : Bool :=
  let l := mSign (pyStripC s.data)
  match mLitCI "infinity".data l with
  | some r => r.isEmpty
  | none =>
    match mLitCI "inf".data l with
    | some r => r.isEmpty
    | none =>
      match mLitCI "nan".data l with
      | some r => r.isEmpty
      | none =>
        match mFloatMantissa l with
        | none => false
        | some r =>
          match mFloatExp r with
          | some r2 => r2.isEmpty
          | none => false

/-- Whether CPython `int(s)` (base 10) accepts the string (ASCII model). -/
def pyIntAccepts (s : String) : Bool :=
  let l := mSign (pyStripC s.data)
  match mDigitPart l with
  | some r => r.isEmpty
  | none => false

/-- Model of the Python expression `float(s)` used only for its effect:
raises `ValueError` exactly when the literal is rejected. -/
def pyFloatE (s : String) : Except String Unit :=
  if pyFloatAccepts s then .ok () else .error "ValueError"

/-- Model of the Python expression `int(s)` used only for its effect. -/
def pyIntE (s : String) : Except String Unit :=
  if pyIntAccepts s then .ok () else .error "ValueError"

/-- Whether a character list starts with the given character
(`str.startswith` for a one-character prefix). -/
def startsWithC (c : Char) : List Char → Bool
  | a :: _ => a = c
  | [] => false

/-- Whether a character list ends with the given character
(`str.endswith` for a one-character suffix). -/
def endsWithC (c : Char) (l : List Char) : Bool :=
  match l.getLast? with
  | some a => a = c
  | none => false

/-- Model of Python `str.replace(old, new, 1)` for single characters:
replace the first occurrence only. -/
def replaceFirstChar (old new : Char) : List Char → List Char
  | [] => []
  | c :: rest => if c = old then new :: rest else c :: replaceFirstChar old new rest

/-- Embedding of `infer_define_type` (src/parser.py lines 173-193), in
the `Except` monad: the two `try/except ValueError` blocks of the source
become matches on the `Except` values, and any uncaught exception would
surface as `.error`. -/
def infer_define_type (value : String) : Except String String :=
  if value.data.isEmpty then .ok "String"
  else
    let s := pyStripC value.data
    if (startsWithC quoteC s && endsWithC quoteC s) ||
       (startsWithC aposC s && endsWithC aposC s) then .ok "String"
    else if String.mk (s.map Char.toLower) = "true" ∨
            String.mk (s.map Char.toLower) = "false" then .ok "boolean"
    else
      intFallback s (
        if s.contains ',' || s.contains '.' then
          match pyFloatE (String.mk (replaceFirstChar ',' '.' s)) with
          | .ok _ => some (.ok "float")
          | .error e => if e = "ValueError" then none else some (.error e)
        else none)
where
  /-- Shared continuation for the `int(s)` attempt (the code after the
  first `try` block). -/
  intFallback (s : List Char) : Option (Except String String) → Except String String
    | some r => r
    | none =>
      match pyIntE (String.mk s) with
      | .ok _ => .ok "long"
      | .error e => if e = "ValueError" then .ok "String" else .error e

/-! ### Global-section parsing (`parse_global_section`) -/

/-- Return-type alternatives of the function-removal pattern
(src/parser.py line 166; note this list is shorter than the one of
`parse_functions`). -/
def removeFuncTypes : List String :=
  ["void", "int", "long", "bool", "boolean", "float", "double", "byte",
   "char", "String"]

/-- Matcher for the removal pattern
`TYPE\s+NAME\s*\([^)]*\)\s*\{[^}]*\}` of one named function. -/
def matchFuncDef (name : List Char) (types : List String) (l : List Char) : Option Nat :=
  match types with
  | [] => none
  | t :: ts =>
    match matchOne t with
    | some n => some n
    | none => matchFuncDef name ts l
where
  /-- Match the pattern with one fixed return-type alternative. -/
  matchOne (t : String) : Option Nat :=
    match mLit t.data l with
    | none => none
    | some (n0, l0) =>
      match mWs1 l0 with
      | none => none
      | some (n1, l1) =>
        match mLit name l1 with
        | none => none
        | some (n2, l2) =>
          let (n3, l3) := mWs0 l2
          match mChar '(' l3 with
          | none => none
          | some (n4, l4) =>
            let ps := l4.takeWhile (· ≠ ')')
            match mChar ')' (l4.drop ps.length) with
            | none => none
            | some (n5, l5) =>
              let (n6, l6) := mWs0 l5
              match mChar '\x7b' l6 with
              | none => none
              | some (n7, l7) =>
                let bs := l7.takeWhile (· ≠ '\x7d')
                match mChar '\x7d' (l7.drop bs.length) with
                | none => none
                | some (n8, _) =>
                  some (n0 + n1 + n2 + n3 + n4 + ps.length + n5 + n6 +
                        n7 + bs.length + n8)

/-- Model of `re.sub(pattern, '', text)`: delete every non-overlapping
match, scanning left to right. `fuel` bounds the scan. -/
def removeAll (fuel : Nat) (m : List Char → Option Nat) (l : List Char) : List Char :=
  match fuel with
  | 0 => l
  | fuel + 1 =>
    match l with
    | [] => []
    | c :: rest =>
      match m (c :: rest) with
      | some len => removeAll fuel m ((c :: rest).drop len)
      | none => c :: removeAll fuel m rest

/-- Function-removal pass of src/parser.py lines 163-167: delete the
definitions of the user functions located before `setup`/`loop`. -/
def removePreSetupFuncs (sect : List Char) (functions : List (String × FuncInfo)) : List Char :=
  functions.foldl (fun sec p =>
    if p.2.location = "до setup/loop" then
      removeAll (sec.length + 1) (matchFuncDef p.1.data removeFuncTypes) sec
    else sec) sect

/-- Matcher for the include pattern `^\s*#include[^\n]*$` at a
line-start position (`\s*` may cross line boundaries, as `\s` matches
newlines in Python). -/
def matchInclude (l : List Char) : Option Nat :=
  let (n0, l0) := mWs0 l
  match mLit "#include".data l0 with
  | none => none
  | some (n1, l1) =>
    let tl := l1.takeWhile (· ≠ '\n')
    some (n0 + n1 + tl.length)

/-- Model of `re.findall(r'^\s*#include[^\n]*$', section, re.MULTILINE)`
(src/parser.py lines 170-171): try the pattern at every line start,
non-overlapping. The flag records whether the previous character was a
newline. -/
def findIncludes (fuel : Nat) (l : List Char) (lineStart : Bool) : List String :=
  match fuel with
  | 0 => []
  | fuel + 1 =>
    match l with
    | [] => []
    | c :: rest =>
      if lineStart then
        match matchInclude (c :: rest) with
        | some len =>
          String.mk ((c :: rest).take len) ::
            findIncludes fuel ((c :: rest).drop len) false
        | none => findIncludes fuel rest (c = '\n')
      else findIncludes fuel rest (c = '\n')

/-- Matcher for the role-marker pattern `//\s*TAG\b`. -/
def matchRoleTag (tag : List Char) (l : List Char) : Option Nat :=
  match mLit "//".data l with
  | none => none
  | some (n0, l0) =>
    let (n1, l1) := mWs0 l0
    match mLit tag l1 with
    | none => none
    | some (n2, l2) =>
      match l2 with
      | [] => some (n0 + n1 + n2)
      | d :: _ => if isWordC d then none else some (n0 + n1 + n2)

/-- Whether `re.search(r'//\s*TAG\b', text)` succeeds. -/
def hasRoleTag (tag : String) (text : List Char) : Bool :=
  (searchPat (matchRoleTag tag.data) text 0).isSome

/-- Record for one `#define` (src/parser.py line 211). -/
structure DefineRec where
  name : String
  value : String
  role : String
  type : String
  position : Option Nat
deriving Repr, DecidableEq

/-- Per-line `#define` parsing of src/parser.py lines 196-212, in the
`Except` monad (the type inference may, in principle, raise). -/
def parseDefines (lns : List (List Char)) (off : Nat) : Except String (List DefineRec) :=
  match lns with
  | [] => .ok []
  | line :: rest => do
    let nextOff := off + line.length + 1
    let stripped := pyStripC line
    if ¬ ("#define".data).isPrefixOf stripped then
      parseDefines rest nextOff
    else
      match matchDefineLine stripped with
      | none => parseDefines rest nextOff
      | some (nm, g2) =>
        let rest2 := pyStripC g2
        let role := if hasRoleTag "par" rest2 then "parameter" else "global"
        let value :=
          if containsSub "//".data rest2 then
            pyStripC (rest2.take (((findSubFrom "//".data rest2 0).getD 0)))
          else rest2
        let dtype ← infer_define_type (String.mk value)
        let ds ← parseDefines rest nextOff
        .ok ({ name := String.mk nm, value := String.mk value, role := role,
               type := dtype, position := some off } :: ds)
where
  /-- Match `#define\s+([A-Za-z_][A-Za-z0-9_]*)\s*(.*)$` against the
  stripped line; returns the name and the raw remainder group. -/
  matchDefineLine (l : List Char) : Option (List Char × List Char) :=
    match mLit "#define".data l with
    | none => none
    | some (_, l0) =>
      match mWs1 l0 with
      | none => none
      | some (_, l1) =>
        match mIdent l1 with
        | none => none
        | some (nm, _, l2) =>
          let (_, l3) := mWs0 l2
          some (nm, l3)

/-- Mask of preprocessor lines (`mask_directives`, src/parser.py lines
368-371): a line whose first non-blank character (blanks being space or
tab) is `#` is replaced by spaces of the same length. -/
def mask_directives (l : List Char) : List Char :=
  joinWith ['\n'] ((pySplitOn '\n' l).map fun line =>
    if startsWithC '#' (line.dropWhile fun c => c = ' ' || c = '\t') then
      List.replicate line.length ' '
    else line)

/-- Block-comment mask (first substitution of `mask_comments`,
src/parser.py line 376): each `/* ... */` span (non-greedy) becomes
spaces; an unterminated `/*` is left as is. -/
def maskBlockComments (fuel : Nat) (l : List Char) : List Char :=
  match fuel with
  | 0 => l
  | fuel + 1 =>
    match findSubFrom "/*".data l 0 with
    | none => l
    | some i =>
      match findSubFrom "*/".data (l.drop (i + 2)) 0 with
      | none => l
      | some j =>
        l.take i ++ List.replicate (j + 4) ' ' ++
          maskBlockComments fuel (l.drop (i + j + 4))

/-- Line-comment mask (second substitution of `mask_comments`,
src/parser.py line 377): `//` to end of line becomes spaces. -/
def maskLineComments (fuel : Nat) (l : List Char) : List Char :=
  match fuel with
  | 0 => l
  | fuel + 1 =>
    match findSubFrom "//".data l 0 with
    | none => l
    | some i =>
      let seg := (l.drop i).takeWhile (· ≠ '\n')
      l.take i ++ List.replicate seg.length ' ' ++
        maskLineComments fuel ((l.drop i).drop seg.length)

/-- Embedding of `mask_comments` (src/parser.py lines 373-378). -/
def mask_comments (l : List Char) : List Char :=
  maskLineComments (l.length + 1) (maskBlockComments (l.length + 1) l)

/-- Scanner state shared by `split_top_level`, `split_initializer` and
`split_statements` (src/parser.py lines 227-366): nesting depths and
string-literal state. -/
structure ScanSt where
  paren : Nat
  bracket : Nat
  brace : Nat
  inString : Bool
  stringChar : Char
  escape : Bool
deriving Repr, DecidableEq

/-- Initial scanner state. -/
def ScanSt.init : ScanSt :=
  { paren := 0, bracket := 0, brace := 0, inString := false,
    stringChar := ' ', escape := false }

/-- Depth update for one character outside a string literal (the
`max(x - 1, 0)` floors are `Nat` subtraction). -/
def ScanSt.step (st : ScanSt) (c : Char) : ScanSt :=
  if c = '(' then { st with paren := st.paren + 1 }
  else if c = ')' then { st with paren := st.paren - 1 }
  else if c = '[' then { st with bracket := st.bracket + 1 }
  else if c = ']' then { st with bracket := st.bracket - 1 }
  else if c = '\x7b' then { st with brace := st.brace + 1 }
  else if c = '\x7d' then { st with brace := st.brace - 1 }
  else st

/-- Whether all three depths are zero. -/
def ScanSt.flat (st : ScanSt) : Bool :=
  st.paren = 0 && st.bracket = 0 && st.brace = 0

/-- String-literal bookkeeping for one character already known to be
inside a string: returns the state after the character. -/
def ScanSt.inStr (st : ScanSt) (c : Char) : ScanSt :=
  if st.escape then { st with escape := false }
  else if c = '\\' then { st with escape := true }
  else if c = st.stringChar then { st with inString := false }
  else st

/-- Embedding of `split_statements` (src/parser.py lines 323-366):
split the text on top-level semicolons; each statement is stripped, and
its recorded start index is the position right after the previous
semicolon. Characters left in the buffer at end of text are discarded,
as in the source. -/
def splitStatementsGo (l : List Char) (idx : Nat) (buf : List Char)
    (st : ScanSt) (start : Nat) : List (String × Nat) :=
  match l with
  | [] => []
  | c :: rest =>
    if st.inString then
      splitStatementsGo rest (idx + 1) (c :: buf) (st.inStr c) start
    else if c = quoteC ∨ c = aposC then
      splitStatementsGo rest (idx + 1) (c :: buf)
        { st with inString := true, stringChar := c } start
    else
      let st2 := st.step c
      if c = ';' ∧ st2.flat then
        let stmt := pyStripC buf.reverse
        if stmt.isEmpty then
          splitStatementsGo rest (idx + 1) [] st2 (idx + 1)
        else
          (String.mk stmt, start) :: splitStatementsGo rest (idx + 1) [] st2 (idx + 1)
      else
        splitStatementsGo rest (idx + 1) (c :: buf) st2 start

/-- Statement splitter entry point. -/
def split_statements (l : List Char) : List (String × Nat) :=
  splitStatementsGo l 0 [] ScanSt.init 0

/-- Embedding of `split_top_level` (src/parser.py lines 227-276): split
on a delimiter at top nesting level, dropping empty stripped parts and
appending a final nonempty stripped tail. -/
def splitTopLevelGo (delim : Char) (l : List Char) (buf : List Char)
    (st : ScanSt) : List (List Char) :=
  match l with
  | [] =>
    let tail := pyStripC buf.reverse
    if tail.isEmpty then [] else [tail]
  | c :: rest =>
    if st.inString then
      splitTopLevelGo delim rest (c :: buf) (st.inStr c)
    else if c = quoteC ∨ c = aposC then
      splitTopLevelGo delim rest (c :: buf)
        { st with inString := true, stringChar := c }
    else
      let st2 := st.step c
      if c = delim ∧ st2.flat then
        let part := pyStripC buf.reverse
        if part.isEmpty then splitTopLevelGo delim rest [] st2
        else part :: splitTopLevelGo delim rest [] st2
      else
        splitTopLevelGo delim rest (c :: buf) st2

/-- Top-level splitter entry point. -/
def split_top_level (text : List Char) (delim : Char) : List (List Char) :=
  splitTopLevelGo delim text [] ScanSt.init

/-- Embedding of `split_initializer` (src/parser.py lines 278-317):
split one declarator on its first top-level `=`; the initializer is
`none` when absent or empty after stripping. -/
def splitInitializerGo (l : List Char) (seen : List Char) (st : ScanSt) :
    List Char × Option (List Char) :=
  match l with
  | [] => (pyStripC seen.reverse, none)
  | c :: rest =>
    if st.inString then
      splitInitializerGo rest (c :: seen) (st.inStr c)
    else if c = quoteC ∨ c = aposC then
      splitInitializerGo rest (c :: seen)
        { st with inString := true, stringChar := c }
    else
      let st2 := st.step c
      if c = '=' ∧ st2.flat then
        let v := pyStripC rest
        (pyStripC seen.reverse, if v.isEmpty then none else some v)
      else
        splitInitializerGo rest (c :: seen) st2

/-- Initializer splitter entry point. -/
def split_initializer (decl : List Char) : List Char × Option (List Char) :=
  splitInitializerGo decl [] ScanSt.init

/-- Model of `re.findall(r'[A-Za-z_][A-Za-z0-9_]*', text)`: all maximal
identifier matches, scanned left to right. -/
def findIdents (fuel : Nat) (l : List Char) : List (List Char) :=
  match fuel with
  | 0 => []
  | fuel + 1 =>
    match l with
    | [] => []
    | c :: rest =>
      if identStart c then
        let tl := rest.takeWhile isWordC
        (c :: tl) :: findIdents fuel (rest.drop tl.length)
      else findIdents fuel rest

/-- Embedding of `extract_name` (src/parser.py lines 319-321): the last
identifier-shaped token, if any. -/
def extract_name (name_part : List Char) : Option String :=
  ((findIdents (name_part.length + 1) name_part).getLast?).map String.mk

/-- Matcher for the prototype heuristic pattern
`\w+\s*\([^)]*\)\s*$` at one position; the `$` requires the match to
reach the end of the statement. -/
def matchProtoAt (l : List Char) : Bool :=
  match l with
  | [] => false
  | c :: rest =>
    if isWordC c then
      let w := rest.dropWhile isWordC
      let l1 := w.dropWhile pyWs
      match l1 with
      | '(' :: l2 =>
        let inner := l2.dropWhile (· ≠ ')')
        match inner with
        | ')' :: l3 => (l3.dropWhile pyWs).isEmpty
        | _ => false
      | _ => false
    else false

/-- Whether any position of the statement matches the prototype pattern
(`re.search`). -/
def protoSearch : List Char → Bool
  | [] => false
  | c :: rest => matchProtoAt (c :: rest) || protoSearch rest

/-- Prototype-skip condition of src/parser.py line 388: pattern found
and no `=` anywhere in the statement. -/
def isPrototypeStmt (stmt : List Char) : Bool :=
  protoSearch stmt && ¬ stmt.contains '='

/-- Role inference from the declaration's source line (src/parser.py
lines 397-403): first matching marker among `in`, `out`, `par` wins. -/
def roleOfLine (line : List Char) : String :=
  if hasRoleTag "in" line then "input"
  else if hasRoleTag "out" line then "output"
  else if hasRoleTag "par" line then "parameter"
  else "variable"

/-- One qualifier step of the pattern `(?:(?:static|const|volatile)\s+)`:
a qualifier word followed by at least one whitespace character. -/
def matchQual (l : List Char) : Option (List Char) :=
  go ["static", "const", "volatile"]
where
  /-- Try the qualifier alternatives in the alternation order. -/
  go : List String → Option (List Char)
    | [] => none
    | q :: qs =>
      match mLit q.data l with
      | none => go qs
      | some (_, l0) =>
        match mWs1 l0 with
        | none => go qs
        | some (_, l1) => some l1

/-- Greedy repetition of qualifier steps (at least one already matched). -/
def stripQualsGo (fuel : Nat) (l : List Char) : List Char :=
  match fuel with
  | 0 => l
  | fuel + 1 =>
    match matchQual l with
    | some r => stripQualsGo fuel r
    | none => l

/-- Embedding of the storage-qualifier strip (src/parser.py line 406):
`re.sub(r'^\s*(?:(?:static|const|volatile)\s+)+', '', stmt)` — the
prefix is removed only when at least one qualifier matches. -/
def stripQuals (stmt : List Char) : List Char :=
  let l0 := stmt.dropWhile pyWs
  match matchQual l0 with
  | some r => stripQualsGo (stmt.length + 1) r
  | none => stmt

/-- The primitive type names (constants.py `PRIMITIVE_TYPES`), listed by
decreasing length as built on src/parser.py line 218. `PRIMITIVE_TYPES`
is a Python set, so the order of names of equal length is arbitrary; it
is also irrelevant, because distinct names of equal length cannot match
at the same position. -/
def primTypesByLen : List String :=
  ["unsigned long", "uint16_t", "uint32_t", "int16_t", "int32_t",
   "uint8_t", "boolean", "String", "double", "float", "long", "bool",
   "byte", "char", "int"]

/-- Match one primitive type name as the source's pattern construction
(src/parser.py lines 219-221) actually behaves. The source builds each
alternative as `re.sub(r'\s+', r'\\s+', re.escape(type_name))`;
`re.escape` escapes the space of `unsigned long` to backslash-space,
and the substitution then replaces only the space itself, yielding the
pattern text `unsigned\\s+long` — an escaped (literal) backslash
followed by one or more literal `s` — not the whitespace class. The
alternative therefore matches `unsigned` + `\` + `s`-run + `long` and
never matches a real two-word declaration. Returns the matched text
and the remainder. -/
def matchTypeName (t : String) (l : List Char) : Option (List Char × List Char) :=
  go (pySplitWs t.data) l
where
  /-- Match the whitespace-separated tokens of the type name, joined by
  a literal backslash and a nonempty run of `s`. The run is taken
  greedily; since no later token of a type name starts with `s`,
  maximal munch agrees with the engine's backtracking. -/
  go : List (List Char) → List Char → Option (List Char × List Char)
    | [], l => some ([], l)
    | [tok], l =>
      match mLit tok l with
      | none => none
      | some (_, r) => some (tok, r)
    | tok :: toks, l =>
      match mLit tok l with
      | none => none
      | some (_, r) =>
        match r with
        | '\\' :: r1 =>
          let ss := r1.takeWhile (fun c => c = 's')
          if ss.isEmpty then none
          else
            match go toks (r1.drop ss.length) with
            | none => none
            | some (txt, r2) => some (tok ++ '\\' :: (ss ++ txt), r2)
        | _ => none

/-- Collapse whitespace runs to single spaces (`normalize_type`,
src/parser.py lines 224-225, applied after stripping). -/
def squeezeWs : List Char → List Char
  | [] => []
  | c :: rest =>
    if pyWs c then
      match squeezeWs rest with
      | d :: ds => if d = ' ' then d :: ds else ' ' :: d :: ds
      | [] => [' ']
    else c :: squeezeWs rest

/-- Embedding of `normalize_type`. -/
def normalize_type (t : List Char) : String :=
  String.mk (squeezeWs (pyStripC t))

/-- Match the declaration pattern
`^(TYPE)\b\s+(DECLS)$` (src/parser.py lines 408-411) against a stripped
statement: try the type alternatives longest first; after the type,
`\s+` must match and the remaining text must be nonempty and contain no
newline (`.` does not cross line breaks and the statement is stripped).
Returns the normalized type and the declarator text. -/
def matchPrimDecl (stmt : List Char) : Option (String × List Char) :=
  go primTypesByLen
where
  /-- Try each type alternative in order. -/
  go : List String → Option (String × List Char)
    | [] => none
    | t :: ts =>
      match matchTypeName t stmt with
      | none => go ts
      | some (txt, r) =>
        let w := r.takeWhile pyWs
        let decls := r.drop w.length
        if w.isEmpty ∨ decls.isEmpty ∨ decls.contains '\n' then go ts
        else some (normalize_type txt, decls)

/-- Opaque-declaration filter of src/parser.py line 431:
`re.match(r'^[A-Za-z_][A-Za-z0-9_:<>]*\s+.+$', stmt, re.DOTALL)`. -/
def isOpaqueDecl (stmt : List Char) : Bool :=
  match stmt with
  | [] => false
  | c :: rest =>
    if identStart c then
      let r := rest.dropWhile fun d => isWordC d || d = ':' || d = '<' || d = '>'
      let w := r.takeWhile pyWs
      ¬ w.isEmpty && ¬ (r.drop w.length).isEmpty
    else false

/-- Record for one global variable (src/parser.py lines 421-427). The
`alias` key of the Python dict is called `aliasName` here, because
`alias` is a Lean keyword. -/
structure VarInfo where
  type : String
  default : Option String
  role : String
  aliasName : String
  position : Option Nat
deriving Repr, DecidableEq

/-- Source line containing the statement that starts at `start_idx`
(src/parser.py lines 391-395): from the character after the previous
newline to the next newline. -/
def lineTextAt (sect : List Char) (start_idx : Nat) : List Char :=
  let lineStart :=
    match findSubFrom ['\n'] ((sect.take start_idx).reverse) 0 with
    | some k => start_idx - k
    | none => 0
  let lineEnd :=
    match findSubFrom ['\n'] (sect.drop start_idx) 0 with
    | some j => start_idx + j
    | none => sect.length
  (sect.drop lineStart).take (lineEnd - lineStart)

/-- Skip conditions applied to every statement before classification
(src/parser.py lines 384-388): empty, preprocessor-looking, or a bare
function prototype. -/
def stmtIsSkipped (stmt : List Char) : Bool :=
  stmt.isEmpty || startsWithC '#' stmt || isPrototypeStmt stmt

/-- Variable records contributed by one primitive-typed statement
(src/parser.py lines 413-428): `none` when the statement does not match
the primitive declaration pattern, otherwise the list of
`(name, record)` assignments in declarator order. -/
def stmtVarRecords (stmt : List Char) (role : String) (pos : Nat) :
    Option (List (String × VarInfo)) :=
  match matchPrimDecl (stripQuals stmt) with
  | none => none
  | some (ty, decls) =>
    some ((split_top_level decls ',').filterMap fun decl =>
      let (np, vp) := split_initializer decl
      match extract_name np with
      | none => none
      | some nm =>
        some (nm, { type := ty, default := vp.map String.mk, role := role,
                    aliasName := nm, position := some pos }))

/-- Whether the qualifier-stripped statement matches the primitive
declaration pattern. -/
def isPrimitiveStmt (stmt : List Char) : Bool :=
  (matchPrimDecl (stripQuals stmt)).isSome

/-- Sequence of `(name, record)` dictionary assignments performed by the
statement loop of `parse_global_section`, in source order. The single
Python loop is split here into this assignment stream and the opaque
stream `extraDeclsOf`; the two are independent, as the loop body touches
`variables` only in its primitive branch and `extra_declarations` only
in its opaque branch. -/
def declAssignments (sect masked : List Char) : List (String × VarInfo) :=
  (split_statements masked).flatMap fun p =>
    let stmt := p.1.data
    if stmtIsSkipped stmt then []
    else
      match stmtVarRecords stmt (roleOfLine (lineTextAt sect p.2)) p.2 with
      | some recs => recs
      | none => []

/-- Opaque declarations retained by the statement loop (src/parser.py
lines 430-432): statements that are neither skipped nor
primitive-matched, and pass the opaque-declaration filter, kept with a
restored trailing semicolon. -/
def extraDeclsOf (sect masked : List Char) : List String :=
  (split_statements masked).filterMap fun p =>
    let stmt := p.1.data
    if stmtIsSkipped stmt then none
    else if isPrimitiveStmt stmt then none
    else if isOpaqueDecl stmt then some (p.1 ++ ";") else none

/-- The `variables` dictionary: the assignment stream folded through
Python-dict insertion. -/
def variablesOf (sect masked : List Char) : List (String × VarInfo) :=
  (declAssignments sect masked).foldl (fun m r => dictInsert m r.1 r.2) []

/-- Embedding of `parse_global_section` (src/parser.py lines 153-434),
in the `Except` monad (the `#define` type inference is the only step
that could raise). -/
def parse_global_section (global_section : String)
    (functions : List (String × FuncInfo)) :
    Except String (List (String × VarInfo) × List String × List DefineRec × List String) := do
  let sect := removePreSetupFuncs global_section.data functions
  let global_includes := findIncludes (sect.length + 1) sect true
  let defines ← parseDefines (pySplitOn '\n' sect) 0
  let masked := mask_comments (mask_directives sect)
  .ok (variablesOf sect masked, global_includes, defines, extraDeclsOf sect masked)

/-- Full fact set returned by `parse_arduino_code`
(src/parser.py lines 457-465). The `variables` key is called `vars`
here, because `variables` is a reserved token in Lean 4. -/
structure ParseResult where
  leading_comment : Option String
  vars : List (String × VarInfo)
  functions : List (String × FuncInfo)
  global_section_raw : String
  global_includes : List String
  defines : List DefineRec
  extra_declarations : List String
deriving Repr, DecidableEq

/-- Embedding of the extraction entry point `parse_arduino_code`
(src/parser.py lines 437-465). -/
def parse_arduino_code (code : String) : Except String ParseResult := do
  let leading_comment := extract_leading_comment code
  let functions := parse_functions code
  let global_section_raw := extract_global_section code
  let (vs, global_includes, defines, extra_declarations) ←
    parse_global_section global_section_raw functions
  .ok { leading_comment := leading_comment, vars := vs,
        functions := functions, global_section_raw := global_section_raw,
        global_includes := global_includes, defines := defines,
        extra_declarations := extra_declarations }

/-! ### Emitter (`src/generator.py`)

The document is produced as a list of pieces: literal text, and holes
standing for the successive `str(uuid.uuid4())` calls. The uuid values
influence nothing else in the source (they are only formatted into
lines), so the pieces are a function of the arguments alone;
`flattenPieces` resolves the holes from a stream of uuid strings, in
order. In the source, uuid generation order and document order
coincide. -/

/-- One piece of the output document. -/
inductive Piece where
  | lit (s : String)
  | uuid
deriving Repr, DecidableEq

/-- Resolve the pieces against a uuid stream, starting at index `k`. -/
def flattenPieces (u : Nat → String) : Nat → List Piece → String
  | _, [] => ""
  | k, .lit s :: ps => s ++ flattenPieces u k ps
  | k, .uuid :: ps => u k ++ flattenPieces u (k + 1) ps

/-- The `TYPE_MAPPING` table of constants.py. -/
def TYPE_MAPPING : List (String × String) :=
  [("int", "IntegerDataType"), ("long", "LongDataType"),
   ("unsigned long", "LongDataType"), ("bool", "BooleanDataType"),
   ("boolean", "BooleanDataType"), ("float", "FloatDataType"),
   ("double", "FloatDataType"), ("byte", "ByteDataType"),
   ("char", "CharDataType"), ("String", "StringDataType"),
   ("uint8_t", "ByteDataType"), ("int16_t", "IntegerDataType"),
   ("uint16_t", "IntegerDataType"), ("int32_t", "LongDataType"),
   ("uint32_t", "LongDataType")]

/-- Embedding of `get_type_class_name` (src/generator.py lines 11-13). -/
def get_type_class_name (var_type : String) : String :=
  (TYPE_MAPPING.lookup var_type).getD "IntegerDataType"

/-- Charwise model of `html.escape(s)` (quote=True). The sequential
`str.replace` passes of the stdlib implementation are equivalent to this
single map, because `&` is replaced first and no inserted entity
contains a character replaced by a later pass. -/
def escHtmlChar (c : Char) : List Char :=
  if c = '&' then "&amp;".data
  else if c = '<' then "&lt;".data
  else if c = '>' then "&gt;".data
  else if c = quoteC then "&quot;".data
  else if c = aposC then "&#x27;".data
  else [c]

/-- Model of `html.escape` on strings. -/
def pyHtmlEscape (s : String) : String :=
  String.mk (s.data.flatMap escHtmlChar)

/-- Line terminators of Python `str.splitlines`. -/
def isLineTerm (c : Char) : Bool :=
  c = '\n' || c = '\r' || c = '\x0b' || c = '\x0c' || c = '\x1c' ||
  c = '\x1d' || c = '\x1e' || c = '\x85' || c = '\u2028' || c = '\u2029'

/-- Normalize `\r\n` pairs to `\n` (the two-character terminator of
`str.splitlines` behaves exactly like a single one). -/
def crlfToLf : List Char → List Char
  | [] => []
  | '\r' :: '\n' :: rest => '\n' :: crlfToLf rest
  | c :: rest => c :: crlfToLf rest

/-- Worker for `pySplitLines`; `buf` holds the current line, reversed. -/
def pySplitLinesGo : List Char → List Char → List (List Char)
  | buf, [] => if buf.isEmpty then [] else [buf.reverse]
  | buf, c :: rest =>
    if isLineTerm c then buf.reverse :: pySplitLinesGo [] rest
    else pySplitLinesGo (c :: buf) rest

/-- Model of Python `str.splitlines()`. -/
def pySplitLines (l : List Char) : List (List Char) :=
  pySplitLinesGo [] (crlfToLf l)

/-- The per-line right-strip applied to code bodies
(src/generator.py lines 49-50 and 317):
`'\n'.join(line.rstrip() for line in s.splitlines())`. -/
def stripCodeLines (s : String) : String :=
  String.intercalate "\n"
    ((pySplitLines s.data).map fun l => String.mk (pyStripR l))

/-- Python truthy-or for strings: `s or d`. -/
def falsyOr (s d : String) : String := if s = "" then d else s

/-- Embedding of `create_sixx_data_type` (src/generator.py lines 16-32);
returns the pieces and the updated counter (one identifier is consumed
for the instance node). -/
def create_sixx_data_type (var_type : String) (type_id instance_coll_id : Nat)
    (n : Nat) : List Piece × Nat :=
  let type_class := get_type_class_name var_type
  let instance_id := n + 1
  ([.lit ("\t\t\t\t<sixx.object sixx.id=\"" ++ toString type_id ++
      "\" sixx.name=\"type\" sixx.type=\"" ++ type_class ++
      " class\" sixx.env=\"Arduino\" >\n" ++
    "\t\t\t\t\t<sixx.object sixx.id=\"" ++ toString instance_coll_id ++
      "\" sixx.name=\"instanceCollection\" sixx.type=\"OrderedCollection\" sixx.env=\"Core\" >\n" ++
    "\t\t\t\t\t\t<sixx.object sixx.id=\"" ++ toString instance_id ++
      "\" sixx.type=\"" ++ type_class ++ "\" sixx.env=\"Arduino\" >\n" ++
    "\t\t\t\t\t\t</sixx.object>\n" ++
    "\t\t\t\t\t</sixx.object>\n" ++
    "\t\t\t\t</sixx.object>\n")], n + 1)

/-- Pieces of one input/output adaptor entry (src/generator.py lines
103-124 and 132-153); `isInput` selects the `isInput` flag text, and
`idVal` is the `SmallInteger` source id. -/
def ioEntry (code_block_id comment_str_id instance_coll_id : Nat)
    (isInput : Bool) (idVal : Nat) (v : VarInfo) (n : Nat) : List Piece × Nat :=
  let adaptor_id := n + 1
  let obj_id := n + 2
  let id_source_id := n + 3
  let type_id := n + 4
  let name_id := n + 5
  let uuid_obj_id := n + 6
  let (tp, n2) := create_sixx_data_type v.type type_id instance_coll_id (n + 6)
  ([.lit ("\t\t\t<sixx.object sixx.id=\"" ++ toString adaptor_id ++
      "\" sixx.type=\"InputsOutputsAdaptorForUserBlock\" sixx.env=\"Arduino\" >\n" ++
    "\t\t\t\t<sixx.object sixx.id=\"" ++ toString obj_id ++
      "\" sixx.name=\"object\" sixx.type=\"UniversalBlockInputOutput\" sixx.env=\"Arduino\" >\n" ++
    "\t\t\t\t\t<sixx.object sixx.id=\"" ++ toString id_source_id ++
      "\" sixx.name=\"id\" sixx.type=\"SmallInteger\" sixx.env=\"Core\" >" ++
      toString idVal ++ "</sixx.object>\n" ++
    "\t\t\t\t\t<sixx.object sixx.name=\"block\" sixx.idref=\"" ++
      toString code_block_id ++ "\" />\n")] ++
   tp ++
   [.lit ("\t\t\t\t\t<sixx.object sixx.name=\"isInput\" sixx.type=\"" ++
      (if isInput then "True" else "False") ++ "\" sixx.env=\"Core\" />\n" ++
    "\t\t\t\t\t<sixx.object sixx.id=\"" ++ toString name_id ++
      "\" sixx.name=\"name\" sixx.type=\"String\" sixx.env=\"Core\" >" ++
      v.aliasName ++ "</sixx.object>\n" ++
    "\t\t\t\t\t<sixx.object sixx.name=\"isNot\" sixx.type=\"False\" sixx.env=\"Core\" />\n" ++
    "\t\t\t\t\t<sixx.object sixx.name=\"nameCash\" sixx.idref=\"" ++
      toString name_id ++ "\" />\n" ++
    "\t\t\t\t</sixx.object>\n" ++
    "\t\t\t\t<sixx.object sixx.name=\"comment\" sixx.idref=\"" ++
      toString comment_str_id ++ "\" />\n" ++
    "\t\t\t\t<sixx.object sixx.id=\"" ++ toString uuid_obj_id ++
      "\" sixx.name=\"id\" sixx.type=\"String\" sixx.env=\"Core\" >"),
    .uuid,
    .lit ("</sixx.object>\n" ++
    "\t\t\t</sixx.object>\n")], n2)

/-- Pieces of the synthesized `En` input entry (src/generator.py lines
80-100): like an input entry, but with the fixed source id `119328430`,
the `boolean` data type and the literal name `En`. -/
def enInputEntry (code_block_id comment_str_id instance_coll_id : Nat)
    (n : Nat) : List Piece × Nat :=
  let en_adaptor_id := n + 1
  let en_obj_id := n + 2
  let en_id_source_id := n + 3
  let en_type_id := n + 4
  let en_name_id := n + 5
  let en_uuid_obj_id := n + 6
  let (tp, n2) := create_sixx_data_type "boolean" en_type_id instance_coll_id (n + 6)
  ([.lit ("\t\t\t<sixx.object sixx.id=\"" ++ toString en_adaptor_id ++
      "\" sixx.type=\"InputsOutputsAdaptorForUserBlock\" sixx.env=\"Arduino\" >\n" ++
    "\t\t\t\t<sixx.object sixx.id=\"" ++ toString en_obj_id ++
      "\" sixx.name=\"object\" sixx.type=\"UniversalBlockInputOutput\" sixx.env=\"Arduino\" >\n" ++
    "\t\t\t\t\t<sixx.object sixx.id=\"" ++ toString en_id_source_id ++
      "\" sixx.name=\"id\" sixx.type=\"SmallInteger\" sixx.env=\"Core\" >119328430</sixx.object>\n" ++
    "\t\t\t\t\t<sixx.object sixx.name=\"block\" sixx.idref=\"" ++
      toString code_block_id ++ "\" />\n")] ++
   tp ++
   [.lit ("\t\t\t\t\t<sixx.object sixx.name=\"isInput\" sixx.type=\"True\" sixx.env=\"Core\" />\n" ++
    "\t\t\t\t\t<sixx.object sixx.id=\"" ++ toString en_name_id ++
      "\" sixx.name=\"name\" sixx.type=\"String\" sixx.env=\"Core\" >En</sixx.object>\n" ++
    "\t\t\t\t\t<sixx.object sixx.name=\"isNot\" sixx.type=\"False\" sixx.env=\"Core\" />\n" ++
    "\t\t\t\t\t<sixx.object sixx.name=\"nameCash\" sixx.idref=\"" ++
      toString en_name_id ++ "\" />\n" ++
    "\t\t\t\t</sixx.object>\n" ++
    "\t\t\t\t<sixx.object sixx.name=\"comment\" sixx.idref=\"" ++
      toString comment_str_id ++ "\" />\n" ++
    "\t\t\t\t<sixx.object sixx.id=\"" ++ toString en_uuid_obj_id ++
      "\" sixx.name=\"id\" sixx.type=\"String\" sixx.env=\"Core\" >"),
    .uuid,
    .lit ("</sixx.object>\n" ++
    "\t\t\t</sixx.object>\n")], n2)

/-- Stable sort by a natural-number key: the model of Python
`list.sort(key=...)`, which is a stable sort. `List.insertionSort` with
the reflexive key order is stable in the same sense. -/
def pySortByKey {α : Type} (key : α → Nat) (l : List α) : List α :=
  List.insertionSort (fun a b => key a ≤ key b) l

/-- The sort key `_code_order_pos` (src/generator.py line 74). -/
def codeOrderPos (v : VarInfo) : Nat := v.position.getD 999999999

/-- The sorted input list (src/generator.py lines 77-78). -/
def inputsListOf (vars : List (String × VarInfo)) : List (String × VarInfo) :=
  pySortByKey (fun p => codeOrderPos p.2)
    (vars.filter fun p => p.2.role = "input")

/-- The sorted output list (src/generator.py lines 128-129). -/
def outputsListOf (vars : List (String × VarInfo)) : List (String × VarInfo) :=
  pySortByKey (fun p => codeOrderPos p.2)
    (vars.filter fun p => p.2.role = "output")

/-- The reduced record used for parameter entries (a variable record,
or the dict built from a parameter-role define on src/generator.py
lines 178-182). -/
structure PRec where
  type : String
  aliasName : String
  default : Option String
deriving Repr, DecidableEq

/-- The merged, sorted parameter list (src/generator.py lines 166-184):
parameter-role variables, then parameter-role defines, jointly
stable-sorted by source position. -/
def paramsTriplesOf (vars : List (String × VarInfo)) (defines : List DefineRec) :
    List (Nat × String × PRec) :=
  let fromVars := vars.filterMap fun p =>
    if p.2.role = "parameter" then
      some (codeOrderPos p.2, p.1,
        ({ type := p.2.type, aliasName := p.2.aliasName,
           default := p.2.default } : PRec))
    else none
  let fromDefs := defines.filterMap fun d =>
    if d.role = "parameter" then
      some (d.position.getD 999999999, d.name,
        ({ type := d.type, aliasName := d.name,
           default := some d.value } : PRec))
    else none
  pySortByKey (fun t => t.1) (fromVars ++ fromDefs)

/-- The merged parameter list with the sort key dropped
(src/generator.py line 184). -/
def paramsListOf (vars : List (String × VarInfo)) (defines : List DefineRec) :
    List (String × PRec) :=
  (paramsTriplesOf vars defines).map fun t => (t.2.1, t.2.2)

/-- The unsorted plain-variable list (src/generator.py line 241): the
`variable`-role entries in mapping iteration order — the source applies
no sort here. -/
def varsListOf (vars : List (String × VarInfo)) : List (String × VarInfo) :=
  vars.filter fun p => p.2.role = "variable"

/-- The three shapes of the default-value node of a parameter entry
(src/generator.py lines 213-222): a string-typed value, a `Float`
number node, or a `SmallInteger` number node, each carrying the emitted
text. -/
inductive DefaultValNode where
  | stringVal (text : String)
  | floatVal (text : String)
  | intVal (text : String)
deriving Repr, DecidableEq

/-- Default-value computation and node selection for one parameter
(src/generator.py lines 198-222). The source wraps the number branch in
`try/except`, but the guarded code is pure string formatting, which
cannot raise, so the `except` branch (emitting `SmallInteger 0`) is
unreachable and the embedding keeps only the live branches. -/
def paramDefaultNode (param_type : String) (dflt : Option String) : DefaultValNode :=
  let dv0 :=
    if param_type = "String" then falsyOr (dflt.getD "") ""
    else falsyOr (dflt.getD "0") "0"
  let dv :=
    if param_type = "bool" ∨ param_type = "boolean" then
      if String.mk ((pyStripC dv0.data).map Char.toLower) = "true" ∨
         String.mk ((pyStripC dv0.data).map Char.toLower) = "1" then "1" else "0"
    else dv0
  if param_type = "String" then .stringVal (pyHtmlEscape dv)
  else if param_type = "float" ∨ param_type = "double" then .floatVal dv
  else .intVal dv

/-- The emitted default-value line of a parameter entry. -/
def defaultValLine (default_val_id : Nat) : DefaultValNode → String
  | .stringVal t =>
    "\t\t\t\t\t\t<sixx.object sixx.id=\"" ++ toString default_val_id ++
      "\" sixx.name=\"stringDefaultValue\" sixx.type=\"String\" sixx.env=\"Core\" >" ++
      t ++ "</sixx.object>\n"
  | .floatVal t =>
    "\t\t\t\t\t\t<sixx.object sixx.id=\"" ++ toString default_val_id ++
      "\" sixx.name=\"numberDefaultValue\" sixx.type=\"Float\" sixx.env=\"Core\" >" ++
      t ++ "</sixx.object>\n"
  | .intVal t =>
    "\t\t\t\t\t\t<sixx.object sixx.id=\"" ++ toString default_val_id ++
      "\" sixx.name=\"numberDefaultValue\" sixx.type=\"SmallInteger\" sixx.env=\"Core\" >" ++
      t ++ "</sixx.object>\n"

/-- Pieces of one parameter entry (src/generator.py lines 186-230). -/
def paramEntry (instance_coll_id : Nat) (v : PRec) (n : Nat) : List Piece × Nat :=
  let adaptor_id := n + 1
  let param_id := n + 2
  let param_name_id := n + 3
  let param_type_id := n + 4
  let default_val_id := n + 5
  let comment_id := n + 6
  let uuid_param_id := n + 7
  let uuid_adapt_id := n + 8
  let (tp, n2) := create_sixx_data_type v.type param_type_id instance_coll_id (n + 8)
  ([.lit ("\t\t\t\t<sixx.object sixx.id=\"" ++ toString adaptor_id ++
      "\" sixx.type=\"InputsOutputsAdaptorForUserBlock\" sixx.env=\"Arduino\" >\n" ++
    "\t\t\t\t\t<sixx.object sixx.id=\"" ++ toString param_id ++
      "\" sixx.name=\"object\" sixx.type=\"UserBlockParametr\" sixx.env=\"Arduino\" >\n" ++
    "\t\t\t\t\t\t<sixx.object sixx.id=\"" ++ toString param_name_id ++
      "\" sixx.name=\"name\" sixx.type=\"String\" sixx.env=\"Core\" >" ++
      v.aliasName ++ "</sixx.object>\n")] ++
   tp ++
   [.lit ("\t\t\t\t\t\t<sixx.object sixx.name=\"hasDefaultValue\" sixx.type=\"True\" sixx.env=\"Core\" />\n" ++
    defaultValLine default_val_id (paramDefaultNode v.type v.default) ++
    "\t\t\t\t\t\t<sixx.object sixx.name=\"hasUpRange\" sixx.type=\"False\" sixx.env=\"Core\" />\n" ++
    "\t\t\t\t\t\t<sixx.object sixx.name=\"hasDownRange\" sixx.type=\"False\" sixx.env=\"Core\" />\n" ++
    "\t\t\t\t\t\t<sixx.object sixx.id=\"" ++ toString comment_id ++
      "\" sixx.name=\"comment\" sixx.type=\"String\" sixx.env=\"Core\" ></sixx.object>\n" ++
    "\t\t\t\t\t\t<sixx.object sixx.id=\"" ++ toString uuid_param_id ++
      "\" sixx.name=\"id\" sixx.type=\"String\" sixx.env=\"Core\" >"),
    .uuid,
    .lit ("</sixx.object>\n" ++
    "\t\t\t\t\t</sixx.object>\n" ++
    "\t\t\t\t\t<sixx.object sixx.id=\"" ++ toString uuid_adapt_id ++
      "\" sixx.name=\"id\" sixx.type=\"String\" sixx.env=\"Core\" >"),
    .uuid,
    .lit ("</sixx.object>\n" ++
    "\t\t\t\t</sixx.object>\n")], n2)

/-- Pieces of one `CodeUserBlockDeclareStandartBlock` declaration node,
shared by the include / define / opaque / plain-variable loops of
src/generator.py lines 243-303: `name`, `lastPart`, `firstPart` texts
as computed by the respective loop. -/
def declareBlock (nameText lastText firstText : String) (n : Nat) : List Piece × Nat :=
  let decl_id := n + 1
  let decl_name_id := n + 2
  let decl_last_id := n + 3
  let decl_first_id := n + 4
  ([.lit ("\t\t\t\t\t<sixx.object sixx.id=\"" ++ toString decl_id ++
      "\" sixx.type=\"CodeUserBlockDeclareStandartBlock\" sixx.env=\"Arduino\" >\n" ++
    "\t\t\t\t\t\t<sixx.object sixx.id=\"" ++ toString decl_name_id ++
      "\" sixx.name=\"name\" sixx.type=\"String\" sixx.env=\"Core\" >" ++
      nameText ++ "</sixx.object>\n" ++
    "\t\t\t\t\t\t<sixx.object sixx.id=\"" ++ toString decl_last_id ++
      "\" sixx.name=\"lastPart\" sixx.type=\"String\" sixx.env=\"Core\" >" ++
      lastText ++ "</sixx.object>\n" ++
    "\t\t\t\t\t\t<sixx.object sixx.id=\"" ++ toString decl_first_id ++
      "\" sixx.name=\"firstPart\" sixx.type=\"String\" sixx.env=\"Core\" >" ++
      firstText ++ "</sixx.object>\n" ++
    "\t\t\t\t\t</sixx.object>\n")], n + 4)

/-- Pieces of one function node (src/generator.py lines 309-338). -/
def funcEntry (name : String) (fi : FuncInfo) (n : Nat) : List Piece × Nat :=
  let func_id := n + 1
  let func_body_id := n + 2
  let func_proto_id := n + 3
  let func_ret_type_id := n + 4
  let func_name_id := n + 5
  let func_params_coll_id := n + 6
  let body_encoded := pyHtmlEscape (stripCodeLines fi.body)
  let (paramPieces, n2) := goParams fi.parsed_params (n + 6)
  ([.lit ("\t\t\t\t\t<sixx.object sixx.id=\"" ++ toString func_id ++
      "\" sixx.type=\"CodeUserBlockFunction\" sixx.env=\"Arduino\" >\n" ++
    "\t\t\t\t\t\t<sixx.object sixx.id=\"" ++ toString func_body_id ++
      "\" sixx.name=\"functionBody\" sixx.type=\"String\" sixx.env=\"Core\" >" ++
      body_encoded ++ "</sixx.object>\n" ++
    "\t\t\t\t\t\t<sixx.object sixx.id=\"" ++ toString func_proto_id ++
      "\" sixx.name=\"parsesFunctionName\" sixx.type=\"CodeUserBlockFunctionName\" sixx.env=\"Arduino\" >\n" ++
    "\t\t\t\t\t\t\t<sixx.object sixx.id=\"" ++ toString func_ret_type_id ++
      "\" sixx.name=\"declare\" sixx.type=\"String\" sixx.env=\"Core\" >" ++
      fi.return_type ++ "</sixx.object>\n" ++
    "\t\t\t\t\t\t\t<sixx.object sixx.id=\"" ++ toString func_name_id ++
      "\" sixx.name=\"name\" sixx.type=\"String\" sixx.env=\"Core\" >" ++
      name ++ "</sixx.object>\n" ++
    "\t\t\t\t\t\t\t<sixx.object sixx.id=\"" ++ toString func_params_coll_id ++
      "\" sixx.name=\"parametrs\" sixx.type=\"OrderedCollection\" sixx.env=\"Core\" >\n")] ++
   paramPieces ++
   [.lit ("\t\t\t\t\t\t\t</sixx.object>\n" ++
    "\t\t\t\t\t\t</sixx.object>\n" ++
    "\t\t\t\t\t</sixx.object>\n")], n2)
where
  /-- Pieces of the parsed-parameter sub-nodes (src/generator.py lines
  326-334). -/
  goParams : List PParam → Nat → List Piece × Nat
    | [], n => ([], n)
    | p :: ps, n =>
      let fparam_id := n + 1
      let fparam_type_id := n + 2
      let fparam_name_id := n + 3
      let here : List Piece :=
        [.lit ("\t\t\t\t\t\t\t\t<sixx.object sixx.id=\"" ++ toString fparam_id ++
            "\" sixx.type=\"CodeUserBlockFunctionParametr\" sixx.env=\"Arduino\" >\n" ++
          "\t\t\t\t\t\t\t\t\t<sixx.object sixx.id=\"" ++ toString fparam_type_id ++
            "\" sixx.name=\"declare\" sixx.type=\"String\" sixx.env=\"Core\" >" ++
            p.type ++ "</sixx.object>\n" ++
          "\t\t\t\t\t\t\t\t\t<sixx.object sixx.id=\"" ++ toString fparam_name_id ++
            "\" sixx.name=\"name\" sixx.type=\"String\" sixx.env=\"Core\" >" ++
            p.name ++ "</sixx.object>\n" ++
          "\t\t\t\t\t\t\t\t</sixx.object>\n")]
      let (restP, n2) := goParams ps (n + 3)
      (here ++ restP, n2)

/-- State-threaded map of an entry renderer over a list, concatenating
the pieces (the string-accretion loops of the source). -/
def mapEntries {α : Type} (f : α → Nat → List Piece × Nat) :
    List α → Nat → List Piece × Nat
  | [], n => ([], n)
  | a :: as, n =>
    let (p, n1) := f a n
    let (ps, n2) := mapEntries f as n1
    (p ++ ps, n2)

/-- Indexed variant for the input/output loops, whose `SmallInteger`
source id is `id_base + idx * 1000`. -/
def mapEntriesIdx {α : Type} (f : Nat → α → Nat → List Piece × Nat) :
    List α → Nat → Nat → List Piece × Nat
  | [], _, n => ([], n)
  | a :: as, idx, n =>
    let (p, n1) := f idx a n
    let (ps, n2) := mapEntriesIdx f as (idx + 1) n1
    (p ++ ps, n2)

/-- The loop body as emitted (src/generator.py lines 50-52): per-line
right-strip, then — when the enable gate is set — a single wrap in
`if(En) { ... }`. -/
def loopCodeOf (enable_input : Bool) (loop_code : String) : String :=
  let lc := stripCodeLines loop_code
  if enable_input then "if(En)\n\x7b\n" ++ lc ++ "\n\x7d" else lc

/-- Per-entry pieces of the inputs section (src/generator.py lines
80-124), kept as a list with one element per adaptor entry: the
optional `En` entry first, then one entry per input-role variable in
sorted order. The source accretes the same text into `inputs_xml`. -/
def inputsEntriesOf (enable_input : Bool) (vars : List (String × VarInfo))
    (n : Nat) : List (List Piece) × Nat :=
  let (enP, n1) :=
    if enable_input then
      let (p, n') := enInputEntry 2 18 15 n
      ([p], n')
    else ([], n)
  let id_base := if enable_input then 119329430 else 119328430
  let (entP, n2) := goEntries id_base (inputsListOf vars) 0 n1
  (enP ++ entP, n2)
where
  /-- Entry loop with the running index of the `SmallInteger` id. -/
  goEntries (id_base : Nat) : List (String × VarInfo) → Nat → Nat →
      List (List Piece) × Nat
    | [], _, n => ([], n)
    | p :: ps, idx, n =>
      let (e, n1) := ioEntry 2 18 15 true (id_base + idx * 1000) p.2 n
      let (es, n2) := goEntries id_base ps (idx + 1) n1
      (e :: es, n2)

/-- Per-entry pieces of the outputs section (src/generator.py lines
126-153). -/
def outputsEntriesOf (vars : List (String × VarInfo)) (n : Nat) :
    List (List Piece) × Nat :=
  goEntries (outputsListOf vars) 0 n
where
  /-- Entry loop with the running index of the `SmallInteger` id. -/
  goEntries : List (String × VarInfo) → Nat → Nat → List (List Piece) × Nat
    | [], _, n => ([], n)
    | p :: ps, idx, n =>
      let (e, n1) := ioEntry 2 18 15 false (153438280 + idx * 1000) p.2 n
      let (es, n2) := goEntries ps (idx + 1) n1
      (e :: es, n2)

/-- Declaration-section pieces (src/generator.py lines 243-303):
includes, then non-parameter defines, then opaque declarations, then
plain variables. -/
def declareXmlOf (global_includes : List String) (defines : List DefineRec)
    (extra_declarations : List String) (vars : List (String × VarInfo))
    (n : Nat) : List Piece × Nat :=
  let (incP, n1) := mapEntries
    (fun inc m => declareBlock "" "" (pyHtmlEscape (pyRstrip (pyStrip inc))) m)
    global_includes n
  let (defP, n2) := mapEntries
    (fun d m =>
      if d.role = "parameter" then ([], m)
      else
        declareBlock "" ""
          (pyHtmlEscape (pyRstrip ("#define " ++ pyRstrip (pyStrip d.name) ++
            " " ++ pyRstrip (pyStrip d.value)))) m)
    defines n1
  let (extraP, n3) := mapEntries
    (fun line m => declareBlock "" "" (pyHtmlEscape (pyRstrip (pyStrip line))) m)
    extra_declarations n2
  let (varP, n4) := mapEntries
    (fun (p : String × VarInfo) m =>
      let lastText :=
        match p.2.default with
        | some s =>
          if s = "" then ";"
          else " = " ++ pyHtmlEscape (pyRstrip (pyStrip s)) ++ ";"
        | none => ";"
      declareBlock (pyRstrip (pyStrip p.2.aliasName)) lastText
        (pyRstrip (pyStrip p.2.type)) m)
    (varsListOf vars) n3
  (incP ++ defP ++ extraP ++ varP, n4)

/-- Pieces of the whole document produced by `create_ubi_xml_sixx`
(src/generator.py lines 35-391), as a function of the arguments; the
`str(uuid.uuid4())` calls appear as holes, in generation order (which
coincides with document order). -/
def createUbiPieces (block_name block_description : String)
    (vars : List (String × VarInfo)) (functions : List (String × FuncInfo))
    (global_includes : List String) (defines : List DefineRec)
    (extra_declarations : List String) (setup_code loop_code : String)
    (enable_input : Bool) : List Piece :=
  let setup_code_encoded := pyHtmlEscape (stripCodeLines setup_code)
  let loop_code_encoded := pyHtmlEscape (loopCodeOf enable_input loop_code)
  -- ids 1..6: root, code block, main uuid, blocks, label, inputs coll
  let (inputsEntries, n1) := inputsEntriesOf enable_input vars 6
  let inputs_xml := inputsEntries.flatten
  let outputs_coll_id := n1 + 1
  let (outputsEntries, n2) := outputsEntriesOf vars (n1 + 1)
  let outputs_xml := outputsEntries.flatten
  let vars_coll_id := n2 + 1
  let name_str_id := n2 + 2
  let info_id := n2 + 3
  let info_str_id := n2 + 4
  let runs_id := n2 + 5
  let runs_arr_id := n2 + 6
  let runs_val_id := n2 + 7
  let values_arr_id := n2 + 8
  let params_coll_id := n2 + 9
  let (params_xml, n3) := mapEntries
    (fun (p : String × PRec) m => paramEntry 15 p.2 m)
    (paramsListOf vars defines) (n2 + 9)
  let loop_part_id := n3 + 1
  let loop_code_id := n3 + 2
  let setup_part_id := n3 + 3
  let setup_code_id := n3 + 4
  let declare_part_id := n3 + 5
  let declare_coll_id := n3 + 6
  let (declare_xml, n4) :=
    declareXmlOf global_includes defines extra_declarations vars (n3 + 6)
  let func_part_id := n4 + 1
  let func_coll_id := n4 + 2
  let (functions_xml, n5) := mapEntries
    (fun (p : String × FuncInfo) m => funcEntry p.1 p.2 m) functions (n4 + 2)
  let libs_id := n5 + 1
  [Piece.lit ("<?xml version=\"1.0\" encoding=\"utf-16\"?>\n" ++
    "<sixx.object sixx.id=\"1\" sixx.type=\"BlocksLibraryElement\" sixx.env=\"Arduino\" >\n" ++
    "\t<sixx.object sixx.id=\"2\" sixx.name=\"typeClass\" sixx.type=\"CodeUserBlock\" sixx.env=\"Arduino\" >\n" ++
    "\t\t<sixx.object sixx.id=\"3\" sixx.name=\"id\" sixx.type=\"String\" sixx.env=\"Core\" >"),
   Piece.uuid,
   Piece.lit ("</sixx.object>\n" ++
    "\t\t<sixx.object sixx.id=\"4\" sixx.name=\"blocks\" sixx.type=\"OrderedCollection\" sixx.env=\"Core\" ></sixx.object>\n" ++
    "\t\t<sixx.object sixx.id=\"5\" sixx.name=\"label\" sixx.type=\"String\" sixx.env=\"Core\" >" ++
      block_name ++ "</sixx.object>\n" ++
    "\t\t<sixx.object sixx.id=\"6\" sixx.name=\"inputs\" sixx.type=\"OrderedCollection\" sixx.env=\"Core\" >\n")] ++
  inputs_xml ++
  [Piece.lit ("\t\t</sixx.object>\n" ++
    "\t\t<sixx.object sixx.id=\"" ++ toString outputs_coll_id ++
      "\" sixx.name=\"outputs\" sixx.type=\"OrderedCollection\" sixx.env=\"Core\" >\n")] ++
  outputs_xml ++
  [Piece.lit ("\t\t</sixx.object>\n" ++
    "\t\t<sixx.object sixx.id=\"" ++ toString vars_coll_id ++
      "\" sixx.name=\"variables\" sixx.type=\"OrderedCollection\" sixx.env=\"Core\" ></sixx.object>\n" ++
    "\t\t<sixx.object sixx.id=\"" ++ toString name_str_id ++
      "\" sixx.name=\"name\" sixx.type=\"String\" sixx.env=\"Core\" >" ++
      block_name ++ "</sixx.object>\n" ++
    "\t\t<sixx.object sixx.id=\"" ++ toString info_id ++
      "\" sixx.name=\"info\" sixx.type=\"Text\" sixx.env=\"Core\" >\n" ++
    "\t\t\t<sixx.object sixx.id=\"" ++ toString info_str_id ++
      "\" sixx.name=\"string\" sixx.type=\"String\" sixx.env=\"Core\" >" ++
      pyHtmlEscape block_description ++ "</sixx.object>\n" ++
    "\t\t\t<sixx.object sixx.id=\"" ++ toString runs_id ++
      "\" sixx.name=\"runs\" sixx.type=\"RunArray\" sixx.env=\"Core\" >\n" ++
    "\t\t\t\t<sixx.object sixx.id=\"" ++ toString runs_arr_id ++
      "\" sixx.name=\"runs\" sixx.type=\"Array\" sixx.env=\"Core\" >\n" ++
    "\t\t\t\t\t<sixx.object sixx.id=\"" ++ toString runs_val_id ++
      "\" sixx.type=\"SmallInteger\" sixx.env=\"Core\" >50</sixx.object>\n" ++
    "\t\t\t\t</sixx.object>\n" ++
    "\t\t\t\t<sixx.object sixx.id=\"" ++ toString values_arr_id ++
      "\" sixx.name=\"values\" sixx.type=\"Array\" sixx.env=\"Core\" >\n" ++
    "\t\t\t\t\t<sixx.object sixx.type=\"UndefinedObject\" sixx.env=\"Core\" />\n" ++
    "\t\t\t\t</sixx.object>\n" ++
    "\t\t\t</sixx.object>\n" ++
    "\t\t</sixx.object>\n" ++
    "\t\t<sixx.object sixx.id=\"" ++ toString params_coll_id ++
      "\" sixx.name=\"parametrs\" sixx.type=\"OrderedCollection\" sixx.env=\"Core\" >\n")] ++
  params_xml ++
  [Piece.lit ("\t\t</sixx.object>\n" ++
    "\t\t<sixx.object sixx.id=\"" ++ toString loop_part_id ++
      "\" sixx.name=\"loopCodePart\" sixx.type=\"CodeUserBlockLoopCodePart\" sixx.env=\"Arduino\" >\n" ++
    "\t\t\t<sixx.object sixx.id=\"" ++ toString loop_code_id ++
      "\" sixx.name=\"code\" sixx.type=\"String\" sixx.env=\"Core\" >" ++
      loop_code_encoded ++ "</sixx.object>\n" ++
    "\t\t</sixx.object>\n" ++
    "\t\t<sixx.object sixx.id=\"" ++ toString setup_part_id ++
      "\" sixx.name=\"setupCodePart\" sixx.type=\"CodeUserBlockSetupCodePart\" sixx.env=\"Arduino\" >\n" ++
    "\t\t\t<sixx.object sixx.id=\"" ++ toString setup_code_id ++
      "\" sixx.name=\"code\" sixx.type=\"String\" sixx.env=\"Core\" >" ++
      setup_code_encoded ++ "</sixx.object>\n" ++
    "\t\t</sixx.object>\n" ++
    "\t\t<sixx.object sixx.id=\"" ++ toString declare_part_id ++
      "\" sixx.name=\"declareCodePart\" sixx.type=\"CodeUserBlockDeclareCodePart\" sixx.env=\"Arduino\" >\n" ++
    "\t\t\t<sixx.object sixx.id=\"" ++ toString declare_coll_id ++
      "\" sixx.name=\"code\" sixx.type=\"OrderedCollection\" sixx.env=\"Core\" >\n")] ++
  declare_xml ++
  [Piece.lit ("\t\t\t</sixx.object>\n" ++
    "\t\t</sixx.object>\n" ++
    "\t\t<sixx.object sixx.id=\"" ++ toString func_part_id ++
      "\" sixx.name=\"functionCodePart\" sixx.type=\"CodeUserBlockFunctuinCodePart\" sixx.env=\"Arduino\" >\n" ++
    "\t\t\t<sixx.object sixx.id=\"" ++ toString func_coll_id ++
      "\" sixx.name=\"code\" sixx.type=\"OrderedCollection\" sixx.env=\"Core\" >\n")] ++
  functions_xml ++
  [Piece.lit ("\t\t\t</sixx.object>\n" ++
    "\t\t</sixx.object>\n" ++
    "\t\t<sixx.object sixx.id=\"" ++ toString libs_id ++
      "\" sixx.name=\"userLibraries\" sixx.type=\"OrderedCollection\" sixx.env=\"Core\" ></sixx.object>\n" ++
    "\t\t<sixx.object sixx.name=\"notCanManyUse\" sixx.type=\"False\" sixx.env=\"Core\" />\n" ++
    "\t</sixx.object>\n" ++
    "</sixx.object>\n")]

/-- Embedding of `create_ubi_xml_sixx` (src/generator.py lines 35-391):
the document text, with the successive `uuid.uuid4()` values supplied by
the stream `u`. -/
def create_ubi_xml_sixx (block_name block_description : String)
    (vars : List (String × VarInfo)) (functions : List (String × FuncInfo))
    (global_includes : List String) (defines : List DefineRec)
    (extra_declarations : List String) (setup_code loop_code : String)
    (enable_input : Bool) (u : Nat → String) : String :=
  flattenPieces u 0
    (createUbiPieces block_name block_description vars functions
      global_includes defines extra_declarations setup_code loop_code
      enable_input)

/-! ### Code escaping of the current generator (src/scripts/generator.py)

The newer generator module escapes code bodies beyond `html.escape`;
its helper and the three places it is applied to code bodies are
embedded here. -/

/-- Model of Python `str.replace(old, new)` for a one-character needle:
every occurrence is replaced (single-character needles make `replace`
a per-character substitution). -/
def pyReplaceChar (old : Char) (t : List Char) (l : List Char) : List Char :=
  l.flatMap fun a => if a = old then t else [a]

/-- Embedding of `escape_code_for_sixx` (src/scripts/generator.py lines
12-17): `html.escape`, then numeric references for `(`, `)`, `,`, `%`,
in that order. -/
def escape_code_for_sixx (text : String) : String :=
  String.mk
    (pyReplaceChar '%' "&#37;".data
      (pyReplaceChar ',' "&#44;".data
        (pyReplaceChar ')' "&#41;".data
          (pyReplaceChar '(' "&#40;".data
            (pyHtmlEscape text).data))))

/-- The loop-code encoding of src/scripts/generator.py lines 59-63:
right-strip lines, optionally wrap in the `En` guard, then escape. -/
def scripts_loop_code_encoded (enable_input : Bool) (loop_code : String) : String :=
  escape_code_for_sixx (loopCodeOf enable_input loop_code)

/-- The setup-code encoding of src/scripts/generator.py lines 59, 64. -/
def scripts_setup_code_encoded (setup_code : String) : String :=
  escape_code_for_sixx (stripCodeLines setup_code)

/-- The function-body encoding of src/scripts/generator.py line 371. -/
def scripts_function_body_encoded (body : String) : String :=
  escape_code_for_sixx (stripCodeLines body)

/-! ### Specification-side definitions

These definitions follow the wording of the specification, for
comparison against the embedded code. -/

/-- Character-by-character escaping as the spec describes it: markup
escaping, plus numeric character references for the four characters the
consuming tool treats specially. -/
def specSixxEscChar (c : Char) : List Char :=
  if c = '&' then "&amp;".data
  else if c = '<' then "&lt;".data
  else if c = '>' then "&gt;".data
  else if c = quoteC then "&quot;".data
  else if c = aposC then "&#x27;".data
  else if c = '(' then "&#40;".data
  else if c = ')' then "&#41;".data
  else if c = ',' then "&#44;".data
  else if c = '%' then "&#37;".data
  else [c]

/-- Spec-side escaping of a whole code body. -/
def specSixxEscape (s : String) : String :=
  String.mk (s.data.flatMap specSixxEscChar)

/-- The define-type heuristic as the spec words it (spec §3,
`DefineRecord.inferredType`): quoted → String; `true`/`false`
(case-insensitively) → boolean; contains comma or dot and, after
replacing the first comma with a dot, parses as a floating-point
number → float; parses as an integer → long; else String (including
the empty value). -/
def specDefineType (value : String) : String :=
  if value.data.isEmpty then "String"
  else
    let s := pyStripC value.data
    if (startsWithC quoteC s && endsWithC quoteC s) ||
       (startsWithC aposC s && endsWithC aposC s) then "String"
    else if String.mk (s.map Char.toLower) = "true" ∨
            String.mk (s.map Char.toLower) = "false" then "boolean"
    else if (s.contains ',' || s.contains '.') &&
            pyFloatAccepts (String.mk (replaceFirstChar ',' '.' s)) then "float"
    else if pyIntAccepts (String.mk s) then "long"
    else "String"

/-! ### Chunk decomposition of a piece list

Used to state determinism modulo the random unique identifiers: a piece
list denotes the interleaving of fixed text chunks with the streamed
uuid values. -/

/-- Number of uuid holes in a piece list. -/
def uuidCount : List Piece → Nat
  | [] => 0
  | .lit _ :: ps => uuidCount ps
  | .uuid :: ps => uuidCount ps + 1

/-- The fixed text chunks between uuid holes (always one more chunk
than holes). -/
def chunksOf : List Piece → List String
  | [] => [""]
  | .lit s :: ps =>
    match chunksOf ps with
    | c :: cs => (s ++ c) :: cs
    | [] => [s]
  | .uuid :: ps => "" :: chunksOf ps

/-- Interleave chunks with values: `c0 v0 c1 v1 ... cn`. -/
def interleave : List String → List String → String
  | c :: cs, v :: vs => c ++ v ++ interleave cs vs
  | c :: _, [] => c
  | [], _ => ""

/-- Text carried by a default-value node. -/
def defaultTextOf : DefaultValNode → String
  | .stringVal t => t
  | .floatVal t => t
  | .intVal t => t

/-! ### Claims as stated

Propositions transcribing the claims that turn out to be false on the
code, for refutation. -/

/-- Lift of the position sort key to list entries. -/
def entryPos (p : String × VarInfo) : Nat := codeOrderPos p.2

/-- Claim C2 as stated, read against the renderer the application
imports (`from generator import create_ubi_xml_sixx` in src/gui.py):
the four characters `(`, `)`, `,`, `%` are absent from the encoded
code bodies placed in the rendered document. The encoded bodies of
src/generator.py (lines 49-54) are `html.escape` of the processed
bodies, with no further replacement. -/
def claimC2AsStated : Prop :=
  ∀ (enable_input : Bool) (loop_code setup_code : String) (c : Char),
    (c = '(' ∨ c = ')' ∨ c = ',' ∨ c = '%') →
    c ∉ (pyHtmlEscape (loopCodeOf enable_input loop_code)).data ∧
    c ∉ (pyHtmlEscape (stripCodeLines setup_code)).data

/-- Claim C3 as stated: the default is string-typed exactly for the
`String` type; otherwise a number node that is floating-point exactly
when the type is `float`/`double` or the default text contains a
decimal point; a default that parses as neither a float nor an integer
is replaced by the literal `0`; and `bool`/`boolean` defaults are
normalized to `1`/`0` by the case-insensitive test against
`true`/`1`. -/
def claimC3AsStated : Prop :=
  ∀ (ty : String) (dflt : Option String),
    let node := paramDefaultNode ty dflt
    let stored := falsyOr (dflt.getD "0") "0"
    ((∃ t, node = .stringVal t) ↔ ty = "String") ∧
    (ty ≠ "String" → ¬ (ty = "bool" ∨ ty = "boolean") →
      (((∃ t, node = .floatVal t) ↔
          (ty = "float" ∨ ty = "double" ∨ stored.data.contains '.')) ∧
        (¬ pyFloatAccepts stored → ¬ pyIntAccepts stored →
          defaultTextOf node = "0"))) ∧
    ((ty = "bool" ∨ ty = "boolean") →
      defaultTextOf node =
        (if String.mk ((pyStripC stored.data).map Char.toLower) = "true" ∨
            String.mk ((pyStripC stored.data).map Char.toLower) = "1"
         then "1" else "0"))

/-- Claim C5 as stated: each of the four role lists is emitted in
ascending stored-source-position order, independently of the iteration
order of the variables mapping. -/
def claimC5AsStated : Prop :=
  ∀ (vars : List (String × VarInfo)) (defines : List DefineRec),
    (inputsListOf vars).Pairwise (fun a b => entryPos a ≤ entryPos b) ∧
    (outputsListOf vars).Pairwise (fun a b => entryPos a ≤ entryPos b) ∧
    (paramsTriplesOf vars defines).Pairwise (fun a b => a.1 ≤ b.1) ∧
    (varsListOf vars).Pairwise (fun a b => entryPos a ≤ entryPos b) ∧
    (∀ vars', vars.Perm vars' →
      inputsListOf vars = inputsListOf vars' ∧
      outputsListOf vars = outputsListOf vars' ∧
      paramsTriplesOf vars defines = paramsTriplesOf vars' defines ∧
      varsListOf vars = varsListOf vars')

/-- Claim C9 as stated: every statement of the (masked) global section
that is not skipped as a function prototype and does not match the
primitive declaration pattern after qualifier stripping is retained,
with a restored semicolon, among the opaque declarations. -/
def claimC9AsStated : Prop :=
  ∀ (global_section : String) (functions : List (String × FuncInfo))
    (s : String) (i : Nat),
    let sect := removePreSetupFuncs global_section.data functions
    let masked := mask_comments (mask_directives sect)
    (s, i) ∈ split_statements masked →
    ¬ isPrototypeStmt s.data →
    ¬ isPrimitiveStmt s.data →
    (s ++ ";") ∈ extraDeclsOf sect masked

/-- Declarative matching-brace index (spec side of C4): the least
offset `p` such that, over the `p + 1` characters scanned from the
position after the opening brace, the closing braces outnumber the
opening braces by exactly the starting depth `d`. -/
def closeIdxSpec (l : List Char) (d : Nat) : Option Nat :=
  (List.range l.length).find? fun p =>
    (l.take (p + 1)).count '\x7d' == d + (l.take (p + 1)).count '\x7b'

/-! ## Theorems -/

/-- Distribution of a single-character replace over append. -/
theorem pyReplaceChar_append (old : Char) (t : List Char) (a b : List Char) :
    pyReplaceChar old t (a ++ b) = pyReplaceChar old t a ++ pyReplaceChar old t b := by
  simp [pyReplaceChar]

/-- The four extra replaces composed with the markup escape act on one
character exactly as the spec-side per-character escape. -/
theorem escape_chain_char (c : Char) :
    pyReplaceChar '%' "&#37;".data
      (pyReplaceChar ',' "&#44;".data
        (pyReplaceChar ')' "&#41;".data
          (pyReplaceChar '(' "&#40;".data (escHtmlChar c)))) =
      specSixxEscChar c := by
  by_cases h1 : c = '&'
  · subst h1; decide
  by_cases h2 : c = '<'
  · subst h2; decide
  by_cases h3 : c = '>'
  · subst h3; decide
  by_cases h4 : c = quoteC
  · subst h4; decide
  by_cases h5 : c = aposC
  · subst h5; decide
  by_cases h6 : c = '('
  · subst h6; decide
  by_cases h7 : c = ')'
  · subst h7; decide
  by_cases h8 : c = ','
  · subst h8; decide
  by_cases h9 : c = '%'
  · subst h9; decide
  simp [escHtmlChar, specSixxEscChar, pyReplaceChar, h1, h2, h3, h4, h5,
    h6, h7, h8, h9]

/-- List version of `escape_chain_char`. -/
theorem escape_chain_list (l : List Char) :
    pyReplaceChar '%' "&#37;".data
      (pyReplaceChar ',' "&#44;".data
        (pyReplaceChar ')' "&#41;".data
          (pyReplaceChar '(' "&#40;".data (l.flatMap escHtmlChar)))) =
      l.flatMap specSixxEscChar := by
  induction l with
  | nil => rfl
  | cons c cs ih =>
    rw [List.flatMap_cons, pyReplaceChar_append, pyReplaceChar_append,
      pyReplaceChar_append, pyReplaceChar_append, ih, escape_chain_char,
      List.flatMap_cons]

/-- The escaping helper of the current generator equals the spec-side
per-character escape. -/
theorem escape_code_for_sixx_eq_spec (s : String) :
    escape_code_for_sixx s = specSixxEscape s := by
  unfold escape_code_for_sixx specSixxEscape pyHtmlEscape
  exact congrArg String.mk (escape_chain_list s.data)

/-- None of the four specially-treated characters survives the
spec-side escape of any character. -/
theorem specSixxEscChar_no_special (a c : Char)
    (hc : c = '(' ∨ c = ')' ∨ c = ',' ∨ c = '%') :
    c ∉ specSixxEscChar a := by
  by_cases h1 : a = '&'
  · subst h1; rcases hc with h | h | h | h <;> subst h <;> decide
  by_cases h2 : a = '<'
  · subst h2; rcases hc with h | h | h | h <;> subst h <;> decide
  by_cases h3 : a = '>'
  · subst h3; rcases hc with h | h | h | h <;> subst h <;> decide
  by_cases h4 : a = quoteC
  · subst h4; rcases hc with h | h | h | h <;> subst h <;> decide
  by_cases h5 : a = aposC
  · subst h5; rcases hc with h | h | h | h <;> subst h <;> decide
  by_cases h6 : a = '('
  · subst h6; rcases hc with h | h | h | h <;> subst h <;> decide
  by_cases h7 : a = ')'
  · subst h7; rcases hc with h | h | h | h <;> subst h <;> decide
  by_cases h8 : a = ','
  · subst h8; rcases hc with h | h | h | h <;> subst h <;> decide
  by_cases h9 : a = '%'
  · subst h9; rcases hc with h | h | h | h <;> subst h <;> decide
  have ha : specSixxEscChar a = [a] := by
    simp [specSixxEscChar, h1, h2, h3, h4, h5, h6, h7, h8, h9]
  rw [ha]
  intro hmem
  rw [List.mem_singleton] at hmem
  rcases hc with h | h | h | h
  · exact h6 (hmem.symm.trans h)
  · exact h7 (hmem.symm.trans h)
  · exact h8 (hmem.symm.trans h)
  · exact h9 (hmem.symm.trans h)

/-- C2 (amended): the four-character replacement is implemented only by
`escape_code_for_sixx` of src/scripts/generator.py — the renderer the
application imports does plain markup escaping (see
`C2_counterexample`). For the bodies encoded with
`escape_code_for_sixx`, the claimed property holds in full: each
encoded body equals the per-character spec escape (markup escape plus
numeric references `&#40; &#41; &#44; &#37;`) of the processed body,
and none of the four characters occurs in an encoded body. -/
theorem C2_code_body_escaping (setup_code loop_code body : String)
    (enable_input : Bool) :
    scripts_setup_code_encoded setup_code =
      specSixxEscape (stripCodeLines setup_code) ∧
    scripts_loop_code_encoded enable_input loop_code =
      specSixxEscape (loopCodeOf enable_input loop_code) ∧
    scripts_function_body_encoded body =
      specSixxEscape (stripCodeLines body) ∧
    (∀ c, (c = '(' ∨ c = ')' ∨ c = ',' ∨ c = '%') →
      c ∉ (scripts_loop_code_encoded enable_input loop_code).data) := by
  refine ⟨escape_code_for_sixx_eq_spec _, escape_code_for_sixx_eq_spec _,
    escape_code_for_sixx_eq_spec _, ?_⟩
  intro c hc hmem
  unfold scripts_loop_code_encoded at hmem
  rw [escape_code_for_sixx_eq_spec] at hmem
  unfold specSixxEscape at hmem
  rcases List.mem_flatMap.mp hmem with ⟨a, _, ha⟩
  exact specSixxEscChar_no_special a c hc ha

/-- The chunk list is never empty. -/
theorem chunksOf_ne_nil : ∀ ps : List Piece, chunksOf ps ≠ []
  | [] => by simp [chunksOf]
  | .lit s :: ps => by
    simp only [chunksOf]
    rcases h : chunksOf ps with _ | ⟨c, cs⟩ <;> simp
  | .uuid :: ps => by simp [chunksOf]

/-- Resolving a piece list against a uuid stream is the interleaving of
its fixed chunks with the streamed values. -/
theorem flatten_eq_interleave (u : Nat → String) (ps : List Piece) :
    ∀ k, flattenPieces u k ps =
      interleave (chunksOf ps) ((List.range' k (uuidCount ps)).map u) := by
  induction ps with
  | nil => intro k; rfl
  | cons p ps ih =>
    intro k
    cases p with
    | lit s =>
      rcases hch : chunksOf ps with _ | ⟨c, cs⟩
      · exact absurd hch (chunksOf_ne_nil ps)
      have hk := ih k
      rw [hch] at hk
      show s ++ flattenPieces u k ps = _
      simp only [chunksOf, hch, uuidCount]
      rw [hk]
      cases hv : (List.range' k (uuidCount ps)).map u with
      | nil => simp [interleave]
      | cons v vs => simp [interleave, String.append_assoc]
    | uuid =>
      show u k ++ flattenPieces u (k + 1) ps = _
      simp only [chunksOf, uuidCount]
      rw [List.range'_succ, List.map_cons]
      rcases hch : chunksOf ps with _ | ⟨c, cs⟩
      · exact absurd hch (chunksOf_ne_nil ps)
      simp only [interleave]
      rw [← hch, ih (k + 1)]
      simp

/-- C6: two renders with identical arguments are byte-identical except
in the randomly generated unique-identifier fields: for fixed
arguments there is one fixed list of text chunks — containing in
particular every counter-assigned integer node identifier — such that,
for every uuid stream, the document is exactly those chunks
interleaved with the streamed uuid values. -/
theorem C6_deterministic_modulo_uuids (block_name block_description : String)
    (vars : List (String × VarInfo)) (functions : List (String × FuncInfo))
    (global_includes : List String) (defines : List DefineRec)
    (extra_declarations : List String) (setup_code loop_code : String)
    (enable_input : Bool) :
    ∃ (chunks : List String) (m : Nat),
      ∀ u : Nat → String,
        create_ubi_xml_sixx block_name block_description vars functions
          global_includes defines extra_declarations setup_code loop_code
          enable_input u =
        interleave chunks ((List.range m).map u) := by
  refine ⟨chunksOf (createUbiPieces block_name block_description vars functions
      global_includes defines extra_declarations setup_code loop_code
      enable_input),
    uuidCount (createUbiPieces block_name block_description vars functions
      global_includes defines extra_declarations setup_code loop_code
      enable_input), fun u => ?_⟩
  rw [List.range_eq_range']
  exact flatten_eq_interleave u _ 0

/-- Shift a `find?` over an initial range past a failing head. -/
theorem find?_range_shift (n : Nat) (p : Nat → Bool) (h0 : ¬ p 0 = true) :
    (List.range (n + 1)).find? p =
      ((List.range n).find? (fun q => p (q + 1))).map (· + 1) := by
  rw [List.range_succ_eq_map, List.find?_cons_of_neg _ h0, List.find?_map]
  rfl

/-- Two natural-number equality tests agree as booleans when the
underlying propositions are equivalent. -/
theorem beq_congr_iff {a b c d : Nat} (h : a = b ↔ c = d) :
    (a == b) = (c == d) := by
  rw [Bool.eq_iff_iff, beq_iff_eq, beq_iff_eq]
  exact h

/-- The brace-depth scan computes exactly the declarative matching
brace: it succeeds, consuming `p + 1` characters, exactly when `p` is
the least offset closing the depth, and fails otherwise. -/
theorem braceScan_eq (l : List Char) : ∀ d : Nat, 1 ≤ d →
    braceScan l d = (closeIdxSpec l d).map (· + 1) := by
  induction l with
  | nil => intro d _; rfl
  | cons c rest ih =>
    intro d hd
    have hcount : ∀ (q : Nat),
        ((c :: rest).take (q + 1 + 1)).count '\x7d' =
          (rest.take (q + 1)).count '\x7d' + (if c == '\x7d' then 1 else 0) ∧
        ((c :: rest).take (q + 1 + 1)).count '\x7b' =
          (rest.take (q + 1)).count '\x7b' + (if c == '\x7b' then 1 else 0) := by
      intro q
      constructor <;> rw [List.take_succ_cons, List.count_cons]
    by_cases hob : c = '\x7b'
    · subst hob
      have hlhs : braceScan ('\x7b' :: rest) d = (braceScan rest (d + 1)).map (· + 1) := by
        simp [braceScan]
      rw [hlhs, ih (d + 1) (by omega)]
      congr 1
      unfold closeIdxSpec
      rw [show ('\x7b' :: rest).length = rest.length + 1 from rfl,
        find?_range_shift _ _ (by
          rw [List.take_succ_cons, List.take_zero, List.count_cons, List.count_cons]
          simp [beq_iff_eq])]
      have hfun : (fun p : Nat => List.count '\x7d' (List.take (p + 1) rest) ==
            d + 1 + List.count '\x7b' (List.take (p + 1) rest)) =
          (fun q : Nat => List.count '\x7d' (List.take (q + 1 + 1) ('\x7b' :: rest)) ==
            d + List.count '\x7b' (List.take (q + 1 + 1) ('\x7b' :: rest))) := by
        funext q
        refine beq_congr_iff ?_
        rcases hcount q with ⟨h1, h2⟩
        rw [h1, h2]
        simp
        omega
      rw [hfun]
    · by_cases hcb : c = '\x7d'
      · subst hcb
        by_cases hd1 : d = 1
        · subst hd1
          have hlhs : braceScan ('\x7d' :: rest) 1 = some 1 := by
            simp [braceScan]
          rw [hlhs]
          unfold closeIdxSpec
          rw [show ('\x7d' :: rest).length = rest.length + 1 from rfl,
            List.range_succ_eq_map]
          rw [List.find?_cons_of_pos _ (by
            rw [List.take_succ_cons, List.take_zero, List.count_cons, List.count_cons]
            simp)]
          rfl
        · have hd2 : 2 ≤ d := by omega
          have hne : ¬ (d - 1 = 0) := by omega
          have hlhs : braceScan ('\x7d' :: rest) d = (braceScan rest (d - 1)).map (· + 1) := by
            simp [braceScan, hne]
          rw [hlhs, ih (d - 1) (by omega)]
          congr 1
          unfold closeIdxSpec
          rw [show ('\x7d' :: rest).length = rest.length + 1 from rfl,
            find?_range_shift _ _ (by
              rw [List.take_succ_cons, List.take_zero, List.count_cons, List.count_cons]
              simp [beq_iff_eq]
              omega)]
          have hfun : (fun p : Nat => List.count '\x7d' (List.take (p + 1) rest) ==
                d - 1 + List.count '\x7b' (List.take (p + 1) rest)) =
              (fun q : Nat => List.count '\x7d' (List.take (q + 1 + 1) ('\x7d' :: rest)) ==
                d + List.count '\x7b' (List.take (q + 1 + 1) ('\x7d' :: rest))) := by
            funext q
            refine beq_congr_iff ?_
            rcases hcount q with ⟨h1, h2⟩
            rw [h1, h2]
            simp
            omega
          rw [hfun]
      · have hne : ¬ (d = 0) := by omega
        have hlhs : braceScan (c :: rest) d = (braceScan rest d).map (· + 1) := by
          simp [braceScan, hob, hcb, hne]
        rw [hlhs, ih d hd]
        congr 1
        unfold closeIdxSpec
        rw [show (c :: rest).length = rest.length + 1 from rfl,
          find?_range_shift _ _ (by
            rw [List.take_succ_cons, List.take_zero, List.count_cons, List.count_cons]
            simp [beq_iff_eq, hob, hcb]
            omega)]
        have hfun : (fun p : Nat => List.count '\x7d' (List.take (p + 1) rest) ==
              d + List.count '\x7b' (List.take (p + 1) rest)) =
            (fun q : Nat => List.count '\x7d' (List.take (q + 1 + 1) (c :: rest)) ==
              d + List.count '\x7b' (List.take (q + 1 + 1) (c :: rest))) := by
          funext q
          refine beq_congr_iff ?_
          rcases hcount q with ⟨h1, h2⟩
          rw [h1, h2]
          have hb : (c == '\x7b') = false := by simp [hob]
          have hc : (c == '\x7d') = false := by simp [hcb]
          rw [hb, hc]
          simp
        rw [hfun]

/-- C4: entry-point body extraction is exact with respect to nested
braces. If the entry-point header is absent, `extract_function_body`
returns `""`. If the header is found, then: when a matching closing
brace exists (at the least offset `p` balancing the nested braces), the
result is exactly the trimmed text strictly between the opening brace
and that closing brace; when the depth never returns to zero, the
result is `""`, never a truncated prefix. The shared brace-matching
primitive `extract_custom_function_body` satisfies the same
characterization from any start offset. -/
theorem C4_brace_matching_exact (code : String) (func_name : String) :
    (searchPat (matchVoidHeader func_name.data) code.data 0 = none →
      extract_function_body code func_name = "") ∧
    (∀ i len,
      searchPat (matchVoidHeader func_name.data) code.data 0 = some (i, len) →
      extract_function_body code func_name =
        (match closeIdxSpec (code.data.drop (i + len)) 1 with
         | some p => pyStrip (String.mk ((code.data.drop (i + len)).take p))
         | none => "")) ∧
    (∀ start : Nat,
      extract_custom_function_body code start =
        (match closeIdxSpec (code.data.drop start) 1 with
         | some p => pyStrip (String.mk ((code.data.drop start).take p))
         | none => "")) := by
  refine ⟨?_, ?_, ?_⟩
  · intro h
    simp only [extract_function_body]
    rw [h]
  · intro i len h
    simp only [extract_function_body]
    rw [h]
    simp only []
    rw [braceScan_eq _ 1 (by omega)]
    rcases hc : closeIdxSpec (code.data.drop (i + len)) 1 with _ | p
    · rfl
    · simp
  · intro start
    unfold extract_custom_function_body
    rw [braceScan_eq _ 1 (by omega)]
    rcases hc : closeIdxSpec (code.data.drop start) 1 with _ | p
    · rfl
    · simp

/-- Witness for C4 at concrete inputs: a body with nested braces is
extracted exactly, and an unterminated body yields the empty string. -/
theorem C4_witness :
    extract_function_body "void setup( ) \x7b a \x7b b \x7d c \x7d x" "setup" =
      "a \x7b b \x7d c" ∧
    extract_function_body "void setup() \x7b unterminated \x7b" "setup" = "" := by
  constructor
  · have h := (C4_brace_matching_exact
      "void setup( ) \x7b a \x7b b \x7d c \x7d x" "setup").2.1 0 15 (by decide)
    rw [show closeIdxSpec
        (("void setup( ) \x7b a \x7b b \x7d c \x7d x".data).drop 15) 1 =
        some 11 from by decide] at h
    exact h.trans (by decide)
  · have h := (C4_brace_matching_exact
      "void setup() \x7b unterminated \x7b" "setup").2.1 0 14 (by decide)
    rw [show closeIdxSpec
        (("void setup() \x7b unterminated \x7b".data).drop 14) 1 =
        none from by decide] at h
    exact h

/-- Helper: the `#define` type inference never raises and computes the
spec-side heuristic; shared by several claims. -/
theorem infer_define_type_eq_spec (value : String) :
    infer_define_type value = .ok (specDefineType value) := by
  by_cases h0 : value.data.isEmpty = true
  · simp [infer_define_type, specDefineType, h0]
  · by_cases hq : ((startsWithC quoteC (pyStripC value.data) &&
        endsWithC quoteC (pyStripC value.data)) ||
        (startsWithC aposC (pyStripC value.data) &&
        endsWithC aposC (pyStripC value.data))) = true
    · simp [infer_define_type, specDefineType, h0, hq]
    · by_cases hb : String.mk ((pyStripC value.data).map Char.toLower) = "true" ∨
          String.mk ((pyStripC value.data).map Char.toLower) = "false"
      · simp [infer_define_type, specDefineType, h0, hq, hb]
      · by_cases hcd : (',' ∈ pyStripC value.data ∨ '.' ∈ pyStripC value.data)
        · by_cases hf : pyFloatAccepts
              (String.mk (replaceFirstChar ',' '.' (pyStripC value.data))) = true
          · simp [infer_define_type, specDefineType,
              infer_define_type.intFallback, pyFloatE, h0, hq, hb, hcd, hf]
          · by_cases hi : pyIntAccepts (String.mk (pyStripC value.data)) = true
            · simp [infer_define_type, specDefineType,
                infer_define_type.intFallback, pyFloatE, pyIntE, h0, hq, hb,
                hcd, hf, hi]
            · simp [infer_define_type, specDefineType,
                infer_define_type.intFallback, pyFloatE, pyIntE, h0, hq, hb,
                hcd, hf, hi]
        · by_cases hi : pyIntAccepts (String.mk (pyStripC value.data)) = true
          · simp [infer_define_type, specDefineType,
              infer_define_type.intFallback, pyIntE, h0, hq, hb, hcd, hi]
          · simp [infer_define_type, specDefineType,
              infer_define_type.intFallback, pyIntE, h0, hq, hb, hcd, hi]

/-- C8: for every `#define` value text the inferred type is `String`
when the text is enclosed in quotes; `boolean` when it equals
`true`/`false` case-insensitively; `float` when it contains a comma or
dot and, after replacing the first comma with a dot, parses as a
floating-point number; `long` when it parses as an integer; otherwise
`String`, including the empty value — and the inference never raises. -/
theorem C8_infer_define_type (value : String) :
    infer_define_type value = .ok (specDefineType value) :=
  infer_define_type_eq_spec value

/-- The per-line `#define` parser never returns an error. -/
theorem parseDefines_ok (lns : List (List Char)) :
    ∀ off : Nat, ∃ ds, parseDefines lns off = .ok ds := by
  induction lns with
  | nil => intro off; exact ⟨[], rfl⟩
  | cons line rest ih =>
    intro off
    rcases ih (off + line.length + 1) with ⟨ds, hds⟩
    by_cases hpre : ("#define".data).isPrefixOf (pyStripC line) = true
    · rcases hm : parseDefines.matchDefineLine (pyStripC line) with _ | ⟨nm, g2⟩
      · exact ⟨ds, by simp [parseDefines, hpre, hm, hds]⟩
      · rcases he : parseDefines (line :: rest) off with e | r
        · rw [parseDefines] at he
          simp [hpre, hm, hds, infer_define_type_eq_spec, Bind.bind,
            Except.bind] at he
        · exact ⟨r, rfl⟩
    · exact ⟨ds, by simp [parseDefines, hpre, hds]⟩

/-- The global-section parser never returns an error. -/
theorem parse_global_section_ok (global_section : String)
    (functions : List (String × FuncInfo)) :
    ∃ r, parse_global_section global_section functions = .ok r := by
  rcases parseDefines_ok
      (pySplitOn '\n' (removePreSetupFuncs global_section.data functions)) 0 with
    ⟨ds, hds⟩
  rcases he : parse_global_section global_section functions with e | r
  · rw [parse_global_section] at he
    simp [hds, Bind.bind, Except.bind] at he
  · exact ⟨r, rfl⟩

/-- C1: the extraction entry point is total — for every input string,
including malformed, truncated, or arbitrary non-Arduino text, the
embedded `parse_arduino_code` returns a complete fact set and never an
error: the only operations of the extractor that can raise
(`int`/`float` conversion inside the `#define` type inference) are
caught by the surrounding `try/except` blocks, and every other sub-step
returns a degraded value (`""`, `[]`, `none`) on a failed match. -/
theorem C1_parse_never_raises (code : String) :
    ∃ fs : ParseResult, parse_arduino_code code = Except.ok fs := by
  rcases parse_global_section_ok (extract_global_section code)
      (parse_functions code) with ⟨r, hr⟩
  rcases he : parse_arduino_code code with e | fs
  · rw [parse_arduino_code] at he
    simp [hr, Bind.bind, Except.bind] at he
  · exact ⟨fs, rfl⟩

/-- Lookup after an in-place value replacement. -/
theorem lookup_mapReplace {α : Type} (m : List (String × α)) (k k' : String) (v : α) :
    ((m.map fun p => if p.1 = k then (p.1, v) else p).lookup k') =
      if k' = k then (m.lookup k).map (fun _ => v) else m.lookup k' := by
  induction m with
  | nil => by_cases h : k' = k <;> simp [h]
  | cons p m ih =>
    obtain ⟨a, b⟩ := p
    by_cases hak : a = k
    · by_cases hka : k' = a
      · subst hka; subst hak
        simp [List.lookup_cons]
      · subst hak
        have hb : (k' == a) = false := by simp [hka]
        simp [List.lookup_cons, hb, hka, ih]
    · by_cases hka : k' = a
      · subst hka
        simp [List.lookup_cons, hak, Ne.symm hak]
      · have hb1 : (k' == a) = false := by simp [hka]
        have hb2 : (k == a) = false := by
          simp [show ¬ k = a from fun h => hak h.symm]
        simp [List.lookup_cons, hb1, hb2, hak, hka, ih]

/-- Lookup after a Python-dict insertion: the inserted key maps to the
new value, every other key is unchanged. -/
theorem dictInsert_lookup {α : Type} (m : List (String × α)) (k k' : String) (v : α) :
    (dictInsert m k v).lookup k' = if k' = k then some v else m.lookup k' := by
  unfold dictInsert
  by_cases hk : (m.lookup k).isSome
  · rw [if_pos hk, lookup_mapReplace]
    by_cases h : k' = k
    · rw [if_pos h, if_pos h]
      rcases hs : m.lookup k with _ | w
      · rw [hs] at hk; simp at hk
      · simp
    · rw [if_neg h, if_neg h]
  · rw [if_neg hk]
    have hnone : m.lookup k = none := by
      rcases hs : m.lookup k with _ | w
      · rfl
      · rw [hs] at hk; simp at hk
    by_cases h : k' = k
    · subst h
      rw [if_pos rfl]
      rw [List.lookup_append, hnone]
      simp [List.lookup_cons]
    · rw [if_neg h, List.lookup_append]
      have hx : List.lookup k' [(k, v)] = none := by
        have hb : (k' == k) = false := by simp [h]
        simp [List.lookup_cons, hb]
      rw [hx]
      rcases m.lookup k' with _ | w <;> rfl

/-- A key absent from the lookup is absent from the key list. -/
theorem lookup_none_not_mem {α : Type} (m : List (String × α)) (k : String)
    (h : m.lookup k = none) : k ∉ m.map Prod.fst := by
  induction m with
  | nil => simp
  | cons p m ih =>
    obtain ⟨a, b⟩ := p
    simp only [List.lookup_cons] at h
    by_cases hk : k = a
    · have hb : (k == a) = true := by simp [hk]
      simp [hb] at h
    · have hb : (k == a) = false := by simp [hk]
      simp only [hb] at h
      simp only [List.map_cons, List.mem_cons]
      rintro (h' | h')
      · exact hk h'
      · exact ih h h'

/-- Python-dict insertion preserves distinctness of keys. -/
theorem dictInsert_keys_nodup {α : Type} (m : List (String × α)) (k : String)
    (v : α) (h : (m.map Prod.fst).Nodup) :
    ((dictInsert m k v).map Prod.fst).Nodup := by
  unfold dictInsert
  by_cases hk : (m.lookup k).isSome
  · rw [if_pos hk, List.map_map]
    have : (Prod.fst ∘ fun p : String × α => if p.1 = k then (p.1, v) else p) =
        Prod.fst := by
      funext p
      by_cases hp : p.1 = k <;> simp [hp]
    rw [this]
    exact h
  · rw [if_neg hk]
    have hnone : m.lookup k = none := by
      rcases hs : m.lookup k with _ | w
      · rfl
      · rw [hs] at hk; simp at hk
    rw [List.map_append]
    refine List.nodup_append.mpr ⟨h, by simp, ?_⟩
    intro a ha
    simp only [List.map_cons, List.map_nil, List.mem_singleton]
    intro hak
    subst hak
    exact lookup_none_not_mem m a hnone ha

/-- Folding Python-dict insertions: the final binding of a key is the
value of its last assignment, and earlier bindings (including those of
the initial dictionary) are overwritten. -/
theorem foldl_dictInsert_lookup {α : Type} (k : String) :
    ∀ (l m : List (String × α)),
      ((l.foldl (fun acc r => dictInsert acc r.1 r.2) m).lookup k) =
        ((l.reverse.find? fun r => r.1 == k).map Prod.snd).or (m.lookup k) := by
  intro l
  induction l with
  | nil => intro m; simp
  | cons r l ih =>
    intro m
    rw [List.foldl_cons, ih, List.reverse_cons, List.find?_append,
      dictInsert_lookup]
    rcases hf : l.reverse.find? (fun r => r.1 == k) with _ | x
    · rw [hf]
      by_cases hrk : (r.1 == k) = true
      · rw [show List.find? (fun r => r.1 == k) [r] = some r from by
          simp [List.find?_cons, hrk]]
        simp [beq_iff_eq.mp hrk]
      · rw [show List.find? (fun r => r.1 == k) [r] = none from by
          have hb : (r.1 == k) = false := by simpa using hrk
          simp [List.find?_cons, hb]]
        have hne : ¬ k = r.1 := fun h => hrk (by simp [h])
        simp [hne]
    · rw [hf]
      simp

/-- Keys of the folded dictionary are distinct. -/
theorem foldl_dictInsert_nodup {α : Type} :
    ∀ (l m : List (String × α)), (m.map Prod.fst).Nodup →
      (((l.foldl (fun acc r => dictInsert acc r.1 r.2) m)).map Prod.fst).Nodup := by
  intro l
  induction l with
  | nil => intro m h; exact h
  | cons r l ih =>
    intro m h
    rw [List.foldl_cons]
    exact ih _ (dictInsert_keys_nodup m r.1 r.2 h)

/-- The first match is the head of the filtered list. -/
theorem find?_eq_head?_filterP {α : Type} (p : α → Bool) :
    ∀ l : List α, l.find? p = (l.filter p).head? := by
  intro l
  induction l with
  | nil => rfl
  | cons a l ih =>
    by_cases h : p a = true
    · simp [List.find?_cons, List.filter_cons, h]
    · have hb : p a = false := by simpa using h
      rw [List.find?_cons_of_neg _ (by simp [hb]), List.filter_cons,
        if_neg (by simp [hb]), ih]

/-- The last match is the first match of the reversal. -/
theorem find?_reverse_eq_getLast?_filter {α : Type} (p : α → Bool) (l : List α) :
    l.reverse.find? p = (l.filter p).getLast? := by
  rw [List.getLast?_eq_head?_reverse, ← List.filter_reverse,
    find?_eq_head?_filterP]

/-- A key found by lookup is among the keys. -/
theorem lookup_some_mem {α : Type} (m : List (String × α)) (k : String) (v : α)
    (h : m.lookup k = some v) : k ∈ m.map Prod.fst := by
  induction m with
  | nil => simp at h
  | cons p m ih =>
    obtain ⟨a, b⟩ := p
    simp only [List.lookup_cons] at h
    by_cases hk : k = a
    · simp [hk]
    · have hb : (k == a) = false := by simp [hk]
      simp only [hb] at h
      simp only [List.map_cons, List.mem_cons]
      exact Or.inr (ih h)

/-- C10: when the global section declares the same variable name in two
or more primitive-typed declarations, extraction keeps exactly one
record for that name — the dictionary binding is the record of the last
declaration assignment in source order (type, default, role and source
position all come from it), the key occurs exactly once, and the keys
of the variables dictionary are distinct. -/
theorem C10_last_declaration_wins (global_section : String)
    (functions : List (String × FuncInfo)) (name : String) :
    let sect := removePreSetupFuncs global_section.data functions
    let masked := mask_comments (mask_directives sect)
    ((variablesOf sect masked).lookup name =
      (((declAssignments sect masked).filter fun r => r.1 == name).getLast?).map
        Prod.snd) ∧
    (((declAssignments sect masked).filter fun r => r.1 == name) ≠ [] →
      ((variablesOf sect masked).map Prod.fst).count name = 1) ∧
    ((variablesOf sect masked).map Prod.fst).Nodup := by
  intro sect masked
  have hnodup : ((variablesOf sect masked).map Prod.fst).Nodup :=
    foldl_dictInsert_nodup _ [] (by simp)
  have hlook : (variablesOf sect masked).lookup name =
      (((declAssignments sect masked).filter fun r => r.1 == name).getLast?).map
        Prod.snd := by
    unfold variablesOf
    rw [foldl_dictInsert_lookup, find?_reverse_eq_getLast?_filter,
      show List.lookup name ([] : List (String × VarInfo)) = none from rfl,
      Option.or_none]
  refine ⟨hlook, ?_, hnodup⟩
  intro hne
  rcases hl : ((declAssignments sect masked).filter
      fun r => r.1 == name).getLast? with _ | y
  · exact absurd (List.getLast?_eq_none_iff.mp hl) hne
  · have : (variablesOf sect masked).lookup name = some y.2 := by
      rw [hlook, hl]; rfl
    exact List.count_eq_one_of_mem hnodup
      (lookup_some_mem _ _ _ this)

/-- Witness for C10 at concrete duplicated declarations. First input:
the second primitive declaration of `a` silently overwrites the first.
Second input: a later `unsigned long a = 2;` is NOT a primitive
declaration assignment (the source's two-word-type pattern never
matches), so the binding stays the earlier `int` record and the
statement goes to the opaque declarations instead. -/
theorem C10_witness :
    ((variablesOf
        (removePreSetupFuncs "int a = 1;\nlong a = 2; // in".data [])
        (mask_comments (mask_directives
          (removePreSetupFuncs "int a = 1;\nlong a = 2; // in".data [])))).lookup
        "a" =
      some { type := "long", default := some "2", role := "variable",
             aliasName := "a", position := some 10 } ∧
    ((variablesOf
        (removePreSetupFuncs "int a = 1;\nlong a = 2; // in".data [])
        (mask_comments (mask_directives
          (removePreSetupFuncs "int a = 1;\nlong a = 2; // in".data [])))).map
        Prod.fst).count "a" = 1) ∧
    ((variablesOf
        (removePreSetupFuncs "int a = 1;\nunsigned long a = 2;".data [])
        (mask_comments (mask_directives
          (removePreSetupFuncs "int a = 1;\nunsigned long a = 2;".data [])))).lookup
        "a" =
      some { type := "int", default := some "1", role := "variable",
             aliasName := "a", position := some 0 } ∧
    extraDeclsOf
        (removePreSetupFuncs "int a = 1;\nunsigned long a = 2;".data [])
        (mask_comments (mask_directives
          (removePreSetupFuncs "int a = 1;\nunsigned long a = 2;".data []))) =
      ["unsigned long a = 2;"]) := by
  have h := C10_last_declaration_wins "int a = 1;\nlong a = 2; // in" [] "a"
  have h2 := C10_last_declaration_wins "int a = 1;\nunsigned long a = 2;" [] "a"
  exact ⟨⟨h.1.trans (by decide), h.2.1 (by decide)⟩,
    h2.1.trans (by decide), by decide⟩

/-- Whether the scan succeeds does not depend on the reported index. -/
theorem findSubFrom_isSome_shift (needle : List Char) :
    ∀ (l : List Char) (i j : Nat),
      (findSubFrom needle l i).isSome = (findSubFrom needle l j).isSome := by
  intro l
  induction l with
  | nil => intro i j; by_cases h : needle.isEmpty <;> simp [findSubFrom, h]
  | cons c rest ih =>
    intro i j
    by_cases h : needle.isPrefixOf (c :: rest) = true
    · simp [findSubFrom, h]
    · have hb : needle.isPrefixOf (c :: rest) = false := Bool.eq_false_iff.mpr h
      simp only [findSubFrom, hb, Bool.false_eq_true, if_false]
      exact ih (i + 1) (j + 1)

/-- Containment is stable under prepending a character. -/
theorem containsSub_cons (needle : List Char) (c : Char) (l : List Char)
    (h : containsSub needle l = true) : containsSub needle (c :: l) = true := by
  unfold containsSub at h ⊢
  by_cases hp : needle.isPrefixOf (c :: l) = true
  · simp [findSubFrom, hp]
  · have hb : needle.isPrefixOf (c :: l) = false := Bool.eq_false_iff.mpr hp
    simp only [findSubFrom, hb, Bool.false_eq_true, if_false]
    rw [findSubFrom_isSome_shift needle l 1 0]
    exact h

/-- Containment in the right part of an append. -/
theorem containsSub_append_right (needle a b : List Char)
    (h : containsSub needle b = true) : containsSub needle (a ++ b) = true := by
  induction a with
  | nil => exact h
  | cons c a ih => exact containsSub_cons needle c (a ++ b) ih

/-- Containment in the left part of an append. -/
theorem containsSub_append_left (needle : List Char) :
    ∀ (a b : List Char), containsSub needle a = true →
      containsSub needle (a ++ b) = true := by
  intro a
  induction a with
  | nil =>
    intro b h
    have hε : needle.isEmpty = true := by
      by_contra hc
      have hb : needle.isEmpty = false := by simpa using hc
      simp [containsSub, findSubFrom, hb] at h
    cases b with
    | nil => simpa [containsSub, findSubFrom, hε] using h
    | cons c rest =>
      have : needle = [] := by
        cases needle with
        | nil => rfl
        | cons x xs => simp at hε
      subst this
      simp [containsSub, findSubFrom, List.isPrefixOf]
  | cons c a ih =>
    intro b h
    by_cases hp : needle.isPrefixOf (c :: (a ++ b)) = true
    · simp [containsSub, findSubFrom, hp]
    · have hpb : needle.isPrefixOf (c :: (a ++ b)) = false := Bool.eq_false_iff.mpr hp
      have hpa : needle.isPrefixOf (c :: a) = false := by
        by_contra hc
        have hc' : needle.isPrefixOf (c :: a) = true := by simpa using hc
        have : needle <+: (c :: a) := List.isPrefixOf_iff_prefix.mp hc'
        have : needle <+: (c :: a) ++ b := this.trans (List.prefix_append _ _)
        exact absurd (List.isPrefixOf_iff_prefix.mpr this) (by simp [hpb])
      have ha : containsSub needle a = true := by
        unfold containsSub at h
        simp only [findSubFrom, hpa, Bool.false_eq_true, if_false] at h
        unfold containsSub
        rw [findSubFrom_isSome_shift needle a 0 1]
        exact h
      have hab := ih b ha
      have := containsSub_cons needle c (a ++ b) hab
      simpa [containsSub] using this

/-- Containment in a literal piece lifts to containment in the resolved
document, for every uuid stream. -/
theorem flatten_contains_of_any (needle : List Char) :
    ∀ (ps : List Piece),
      (ps.any fun p => match p with
        | Piece.lit s => containsSub needle s.data
        | Piece.uuid => false) = true →
      ∀ (u : Nat → String) (k : Nat),
        containsSub needle (flattenPieces u k ps).data = true := by
  intro ps
  induction ps with
  | nil => intro h; simp at h
  | cons p ps ih =>
    intro h u k
    cases p with
    | lit s =>
      have h2 : containsSub needle s.data = true ∨
          (ps.any fun p => match p with
            | Piece.lit s => containsSub needle s.data
            | Piece.uuid => false) = true := by
        have h3 := h
        rw [List.any_cons, Bool.or_eq_true] at h3
        exact h3
      rcases h2 with hhead | htail
      · show containsSub needle (s ++ flattenPieces u k ps).data = true
        rw [String.data_append]
        exact containsSub_append_left needle _ _ (by simpa using hhead)
      · show containsSub needle (s ++ flattenPieces u k ps).data = true
        rw [String.data_append]
        exact containsSub_append_right needle _ _ (ih (by simpa using htail) u k)
    | uuid =>
      have htail : (ps.any fun p => match p with
          | Piece.lit s => containsSub needle s.data
          | Piece.uuid => false) = true := by
        simpa using h
      show containsSub needle (u k ++ flattenPieces u (k + 1) ps).data = true
      rw [String.data_append]
      exact containsSub_append_right needle _ _ (ih htail u (k + 1))

/-- The per-variable input entry loop yields one entry per variable. -/
theorem inputsEntries_goEntries_length (id_base : Nat) :
    ∀ (l : List (String × VarInfo)) (idx n : Nat),
      (inputsEntriesOf.goEntries id_base l idx n).1.length = l.length := by
  intro l
  induction l with
  | nil => intro idx n; rfl
  | cons p l ih =>
    intro idx n
    show (inputsEntriesOf.goEntries id_base (p :: l) idx n).1.length = l.length + 1
    unfold inputsEntriesOf.goEntries
    simp [ih]

set_option maxRecDepth 20000 in
/-- C7: rendering with the enable gate set wraps the loop body in
`if(En) { ... }` exactly once and emits exactly one additional input
entry — the `En` entry, placed first, whose rendered text carries the
name `En` and the boolean data-type class — beyond the entries derived
from the input-role variables; with the gate unset the loop body is only
right-stripped and no `En` entry is emitted. -/
theorem C7_enable_gate (vars : List (String × VarInfo)) (loop_code : String)
    (u : Nat → String) (k : Nat) :
    loopCodeOf true loop_code =
      "if(En)\n\x7b\n" ++ stripCodeLines loop_code ++ "\n\x7d" ∧
    loopCodeOf false loop_code = stripCodeLines loop_code ∧
    (inputsEntriesOf true vars 6).1.length = (inputsListOf vars).length + 1 ∧
    (inputsEntriesOf false vars 6).1.length = (inputsListOf vars).length ∧
    (inputsEntriesOf true vars 6).1.head? = some (enInputEntry 2 18 15 6).1 ∧
    containsSub ">En</sixx.object>\n".data
      (flattenPieces u k (enInputEntry 2 18 15 6).1).data = true ∧
    containsSub "BooleanDataType".data
      (flattenPieces u k (enInputEntry 2 18 15 6).1).data = true := by
  refine ⟨rfl, rfl, ?_, ?_, ?_, ?_, ?_⟩
  · show ((enInputEntry 2 18 15 6).1 ::
        (inputsEntriesOf.goEntries 119329430 (inputsListOf vars) 0
          (enInputEntry 2 18 15 6).2).1).length = (inputsListOf vars).length + 1
    simp [inputsEntries_goEntries_length]
  · show (inputsEntriesOf.goEntries 119328430 (inputsListOf vars) 0 6).1.length =
      (inputsListOf vars).length
    exact inputsEntries_goEntries_length 119328430 (inputsListOf vars) 0 6
  · rfl
  · exact flatten_contains_of_any _ _ (by decide) u k
  · exact flatten_contains_of_any _ _ (by decide) u k

/-- C2 witness: the encoded loop code of a body containing `(` does not
contain `(`. -/
theorem C2_witness : '(' ∉ (scripts_loop_code_encoded true "f(x);").data :=
  (C2_code_body_escaping "" "f(x);" "" true).2.2.2 '(' (Or.inl rfl)

/-- C2 counterexample: the renderer the application imports
(src/generator.py, via src/gui.py) encodes code bodies with
`html.escape` only, so `(` survives into the rendered document: the
claim as stated fails for it. -/
theorem C2_counterexample :
    ¬ claimC2AsStated ∧
    pyHtmlEscape (loopCodeOf false "f(x);") = "f(x);" := by
  constructor
  · intro h
    exact (h false "f(x);" "" '(' (Or.inl rfl)).1 (by decide)
  · decide

/-- C9 counterexample: the claim as stated omits the opaque-declaration
filter. The statement `x++` is neither a prototype nor a primitive
declaration, yet the source discards it: the opaque list of `x++;` is
empty, while the claim requires `x++;` to be retained. -/
theorem C9_counterexample :
    ¬ claimC9AsStated ∧
    extraDeclsOf (removePreSetupFuncs "x++;".data [])
      (mask_comments (mask_directives (removePreSetupFuncs "x++;".data []))) = [] := by
  constructor
  · intro h
    have hc := h "x++;" [] "x++" 0 (by decide) (by decide) (by decide)
    exact absurd hc (by decide)
  · decide

/-- C9 (amended): every statement of the masked global section that is
not skipped (empty, `#`-initial, or a bare prototype), does not match
the primitive declaration pattern, and passes the opaque-declaration
filter is retained with a restored semicolon among the opaque
declarations. -/
theorem C9_opaque_retention (global_section : String)
    (functions : List (String × FuncInfo)) (s : String) (i : Nat)
    (hmem : (s, i) ∈ split_statements
      (mask_comments (mask_directives (removePreSetupFuncs global_section.data functions))))
    (hskip : stmtIsSkipped s.data = false)
    (hprim : isPrimitiveStmt s.data = false)
    (hop : isOpaqueDecl s.data = true) :
    (s ++ ";") ∈ extraDeclsOf (removePreSetupFuncs global_section.data functions)
      (mask_comments (mask_directives (removePreSetupFuncs global_section.data functions))) := by
  refine List.mem_filterMap.mpr ⟨(s, i), hmem, ?_⟩
  simp [hskip, hprim, hop]

/-- C9 witness: `unsigned long x = 5;` is retained as an opaque
declaration — the source's pattern alternative for the two-word type
(`unsigned\\s+long` after `re.escape`) never matches real text, so the
statement is not primitive-matched; it passes the opaque filter and is
kept with its semicolon restored. -/
theorem C9_witness :
    (("unsigned long x = 5" : String) ++ ";") ∈ extraDeclsOf
      (removePreSetupFuncs "unsigned long x = 5;".data [])
      (mask_comments (mask_directives
        (removePreSetupFuncs "unsigned long x = 5;".data []))) :=
  C9_opaque_retention "unsigned long x = 5;" [] "unsigned long x = 5" 0
    (by decide) (by decide) (by decide) (by decide)

/-- C3 counterexample: the source emits the stored default text
verbatim into the number node — there is no decimal-point test on the
text and no numeric validation, so `abc` is emitted as-is (the claim
requires `0`) and `1.5` for an `int` parameter is emitted as a
`SmallInteger` node (the claim requires a `Float` node). -/
theorem C3_counterexample :
    ¬ claimC3AsStated ∧
    paramDefaultNode "int" (some "abc") = .intVal "abc" ∧
    paramDefaultNode "int" (some "1.5") = .intVal "1.5" := by
  refine ⟨?_, by decide, by decide⟩
  intro h
  obtain ⟨-, hB, -⟩ := h "int" (some "abc")
  have h2 := (hB (by decide) (by decide)).2 (by decide) (by decide)
  exact absurd h2 (by decide)

/-- C3 (amended): the default node is string-typed (with HTML escaping)
exactly when the parameter type is `String`; for `bool`/`boolean` the
stored text is normalized to `1`/`0` by the case-insensitive test
against `true`/`1`; for every other type the stored text is emitted
verbatim — as a `Float` node exactly when the type is `float` or
`double`, and as a `SmallInteger` node otherwise, with no validation of
the text. -/
theorem C3_default_value_emission (ty : String) (dflt : Option String) :
    ((∃ t, paramDefaultNode ty dflt = .stringVal t) ↔ ty = "String") ∧
    (ty = "String" →
      paramDefaultNode ty dflt = .stringVal (pyHtmlEscape (falsyOr (dflt.getD "") ""))) ∧
    (ty ≠ "String" → ty ≠ "bool" → ty ≠ "boolean" →
      paramDefaultNode ty dflt =
        (if ty = "float" ∨ ty = "double"
         then .floatVal (falsyOr (dflt.getD "0") "0")
         else .intVal (falsyOr (dflt.getD "0") "0"))) ∧
    (ty = "bool" ∨ ty = "boolean" →
      paramDefaultNode ty dflt = .intVal
        (if String.mk ((pyStripC (falsyOr (dflt.getD "0") "0").data).map Char.toLower) = "true" ∨
            String.mk ((pyStripC (falsyOr (dflt.getD "0") "0").data).map Char.toLower) = "1"
         then "1" else "0")) := by
  by_cases hS : ty = "String"
  · subst hS
    refine ⟨by simp [paramDefaultNode], fun _ => by simp [paramDefaultNode],
      fun hc => absurd rfl hc, fun hc => ?_⟩
    rcases hc with hc | hc <;> exact absurd hc (by decide)
  · by_cases hb : ty = "bool" ∨ ty = "boolean"
    · rcases hb with rfl | rfl
      · exact ⟨by simp [paramDefaultNode], fun h => absurd h (by decide),
          fun _ h _ => absurd rfl h, fun _ => by simp [paramDefaultNode]⟩
      · exact ⟨by simp [paramDefaultNode], fun h => absurd h (by decide),
          fun _ _ h => absurd rfl h, fun _ => by simp [paramDefaultNode]⟩
    · have hb1 : ty ≠ "bool" := fun h => hb (Or.inl h)
      have hb2 : ty ≠ "boolean" := fun h => hb (Or.inr h)
      by_cases hf : ty = "float" ∨ ty = "double"
      · refine ⟨by simp [paramDefaultNode, hS, hb, hf], fun h => absurd h hS,
          fun _ _ _ => by simp [paramDefaultNode, hS, hb, hf], fun h => absurd h hb⟩
      · refine ⟨by simp [paramDefaultNode, hS, hb, hf], fun h => absurd h hS,
          fun _ _ _ => by simp [paramDefaultNode, hS, hb, hf], fun h => absurd h hb⟩

/-- C3 witness: a float parameter keeps its default verbatim in a
`Float` node, and a boolean `TRUE` default is normalized to `1`. -/
theorem C3_witness :
    paramDefaultNode "float" (some "2.5") = .floatVal "2.5" ∧
    paramDefaultNode "bool" (some "TRUE") = .intVal "1" :=
  ⟨((C3_default_value_emission "float" (some "2.5")).2.2.1
      (by decide) (by decide) (by decide)).trans (by decide),
   ((C3_default_value_emission "bool" (some "TRUE")).2.2.2 (Or.inl rfl)).trans (by decide)⟩

/-- The stable key sort produces a list that is pairwise ordered by the
key. -/
theorem pySortByKey_sorted {α : Type} (key : α → Nat) (l : List α) :
    (pySortByKey key l).Pairwise (fun a b => key a ≤ key b) := by
  haveI : IsTotal α (fun a b => key a ≤ key b) := ⟨fun a b => Nat.le_total _ _⟩
  haveI : IsTrans α (fun a b => key a ≤ key b) := ⟨fun a b c h1 h2 => Nat.le_trans h1 h2⟩
  exact List.sorted_insertionSort _ l

/-- Pairwise non-strict key order plus distinct keys gives strict key
order. -/
theorem pairwise_lt_of_nodup_keys {α : Type} (key : α → Nat) (l : List α)
    (hs : l.Pairwise (fun a b => key a ≤ key b)) (hn : (l.map key).Nodup) :
    l.Pairwise (fun a b => key a < key b) := by
  have hp : l.Pairwise (fun a b => key a ≠ key b) := List.pairwise_map.mp hn
  exact (hs.and hp).imp fun h => Nat.lt_of_le_of_ne h.1 h.2

/-- When the keys of a list are pairwise distinct, the key sort is
invariant under permutation of the input. -/
theorem pySortByKey_eq_of_perm {α : Type} (key : α → Nat) (l1 l2 : List α)
    (hp : l1.Perm l2) (hn : (l1.map key).Nodup) :
    pySortByKey key l1 = pySortByKey key l2 := by
  have h1 : (pySortByKey key l1).Perm l1 := List.perm_insertionSort _ _
  have h2 : (pySortByKey key l2).Perm l2 := List.perm_insertionSort _ _
  have hperm : (pySortByKey key l1).Perm (pySortByKey key l2) :=
    h1.trans (hp.trans h2.symm)
  have hn1 : ((pySortByKey key l1).map key).Nodup :=
    (List.Perm.nodup_iff (h1.map key)).mpr hn
  have hn2 : ((pySortByKey key l2).map key).Nodup :=
    (List.Perm.nodup_iff (h2.map key)).mpr ((List.Perm.nodup_iff (hp.map key)).mp hn)
  haveI : IsAntisymm α (fun a b => key a < key b) :=
    ⟨fun a b ha hb => absurd hb (Nat.lt_asymm ha)⟩
  exact List.eq_of_perm_of_sorted hperm
    (pairwise_lt_of_nodup_keys key _ (pySortByKey_sorted key l1) hn1)
    (pairwise_lt_of_nodup_keys key _ (pySortByKey_sorted key l2) hn2)

/-- C5 counterexample: the plain-variable list is NOT sorted by source
position — the source applies no sort on that list (src/generator.py
line 241), so a mapping whose `variable`-role entries arrive out of
position order is emitted out of position order. -/
theorem C5_counterexample :
    ¬ claimC5AsStated ∧
    varsListOf [("b", ⟨"int", none, "variable", "b", some 10⟩),
                ("a", ⟨"int", none, "variable", "a", some 0⟩)] =
      [("b", ⟨"int", none, "variable", "b", some 10⟩),
       ("a", ⟨"int", none, "variable", "a", some 0⟩)] := by
  constructor
  · intro h
    have hc := (h [("b", ⟨"int", none, "variable", "b", some 10⟩),
                   ("a", ⟨"int", none, "variable", "a", some 0⟩)] []).2.2.2.1
    exact absurd hc (by decide)
  · decide

/-- C5 (amended): the input, output and parameter lists are emitted in
ascending stored-source-position order, and — when the relevant sort
keys are pairwise distinct — independently of the iteration order of
the variables mapping; the plain-variable list, however, is only the
`variable`-role filter of the mapping in iteration order, with no
sort. -/
theorem C5_role_lists_order (vars vars' : List (String × VarInfo))
    (defines : List DefineRec) :
    (inputsListOf vars).Pairwise (fun a b => entryPos a ≤ entryPos b) ∧
    (outputsListOf vars).Pairwise (fun a b => entryPos a ≤ entryPos b) ∧
    (paramsTriplesOf vars defines).Pairwise (fun a b => a.1 ≤ b.1) ∧
    varsListOf vars = vars.filter (fun p => p.2.role = "variable") ∧
    (vars.Perm vars' →
      ((((vars.filter fun p => p.2.role = "input").map entryPos).Nodup →
          inputsListOf vars = inputsListOf vars') ∧
        (((vars.filter fun p => p.2.role = "output").map entryPos).Nodup →
          outputsListOf vars = outputsListOf vars') ∧
        (((paramsTriplesOf vars defines).map (fun t => t.1)).Nodup →
          paramsTriplesOf vars defines = paramsTriplesOf vars' defines))) := by
  refine ⟨pySortByKey_sorted entryPos _, pySortByKey_sorted entryPos _,
    pySortByKey_sorted (fun t : Nat × String × PRec => t.1) _, rfl,
    fun hp => ⟨?_, ?_, ?_⟩⟩
  · intro hn
    exact pySortByKey_eq_of_perm entryPos _ _ (hp.filter _) hn
  · intro hn
    exact pySortByKey_eq_of_perm entryPos _ _ (hp.filter _) hn
  · intro hn
    have hperm : (vars.filterMap fun p =>
        if p.2.role = "parameter" then
          some (codeOrderPos p.2, p.1,
            ({ type := p.2.type, aliasName := p.2.aliasName,
               default := p.2.default } : PRec))
        else none).Perm (vars'.filterMap fun p =>
        if p.2.role = "parameter" then
          some (codeOrderPos p.2, p.1,
            ({ type := p.2.type, aliasName := p.2.aliasName,
               default := p.2.default } : PRec))
        else none) := hp.filterMap _
    have hn0 : (((vars.filterMap fun p =>
        if p.2.role = "parameter" then
          some (codeOrderPos p.2, p.1,
            ({ type := p.2.type, aliasName := p.2.aliasName,
               default := p.2.default } : PRec))
        else none) ++ (defines.filterMap fun d =>
        if d.role = "parameter" then
          some (d.position.getD 999999999, d.name,
            ({ type := d.type, aliasName := d.name,
               default := some d.value } : PRec))
        else none)).map (fun t => t.1)).Nodup := by
      have hps : (paramsTriplesOf vars defines).Perm _ :=
        (List.perm_insertionSort (fun a b =>
          (fun t : Nat × String × PRec => t.1) a ≤ (fun t : Nat × String × PRec => t.1) b) _)
      exact (List.Perm.nodup_iff (hps.map (fun t => t.1))).mp hn
    exact pySortByKey_eq_of_perm (fun t => t.1) _ _ (hperm.append_right _) hn0

/-- C5 witness: two input-role variables with distinct positions are
emitted in the same (position) order from either iteration order. -/
theorem C5_witness :
    inputsListOf [("a", ⟨"int", none, "input", "a", some 5⟩),
                  ("b", ⟨"int", none, "input", "b", some 2⟩)] =
    inputsListOf [("b", ⟨"int", none, "input", "b", some 2⟩),
                  ("a", ⟨"int", none, "input", "a", some 5⟩)] :=
  (((C5_role_lists_order
      [("a", ⟨"int", none, "input", "a", some 5⟩),
       ("b", ⟨"int", none, "input", "b", some 2⟩)]
      [("b", ⟨"int", none, "input", "b", some 2⟩),
       ("a", ⟨"int", none, "input", "a", some 5⟩)] []).2.2.2.2
    (List.Perm.swap _ _ _)).1) (by decide)

end Ino2Ubi